import Mathlib

/-!
Verification of the atomicfile library (Linux implementation,
`atomicfile.go`): a shallow embedding of the option accumulator and of the
`Create` pipeline, with theorems settling the specification claims.

Modelling conventions:
- Go `int64`/`int` are `Int`; Go `uint32` values are `Nat` (masking is
  explicit where the source masks).
- `io.Reader` is the closed set of reader shapes that `guessContentSize`
  inspects, plus an opaque catch-all; `readAll` is the byte sequence a
  successful `io.Copy` would transfer.
- Syscall outcomes are supplied by a `Sys` record (one knob per syscall),
  and the directory namespace is a function `FS` from paths to files;
  `linkat` follows the kernel contract: it fails with `EEXIST` when the
  target name exists and never replaces it.
- `create` returns the Go result together with the ordered trace of
  attempted syscalls and the final namespace.
-/

/-- Errno values used by the model (which concrete errno a failing syscall
returns is irrelevant to the claims, except `EEXIST`). -/
inductive Errno where
  | EEXIST | ENOTSUP | EINVAL | EIOFAIL | EACCES | ENOSPC | ENOENT
deriving Repr, DecidableEq

/-- The library's `werror` wrapper: a message plus an optional cause
(`werror0` is `&werror{msg, nil}`); `errno` embeds a raw OS error. -/
inductive Err where
  | errno (e : Errno)
  | werror0 (msg : String)
  | werror (msg : String) (cause : Err)
deriving Repr, DecidableEq

/-- The `unix.Timespec` struct. -/
structure Timespec where
  sec : Int
  nsec : Int
deriving Repr, DecidableEq

/-- The `unix.UTIME_OMIT` constant, `(1 << 30) - 2`. -/
def UTIME_OMIT : Int := 1073741822

/-- The sentinel timespec `unix.Timespec{Nsec: unix.UTIME_OMIT}`. -/
def omitTs : Timespec := ⟨0, UTIME_OMIT⟩

/-- The `^uint32(0)` sentinel for an unset permission field. -/
def permUnset : Nat := 4294967295

abbrev Bytes := List Nat

/-- The reader shapes distinguished by `guessContentSize`, each carrying the
byte sequence a full read would yield, plus the extra state the size guess
inspects (`file`: Stat success and regularity and reported size;
`sectionReader`: current seek position and section size). -/
inductive Reader where
  | buffer (data : Bytes)
  | stringsReader (data : Bytes)
  | file (statOk : Bool) (regular : Bool) (size : Int) (data : Bytes)
  | sectionReader (pos : Int) (size : Int) (data : Bytes)
  | limitedReader (r : Reader) (n : Int)
  | other (data : Bytes)
deriving Repr

/-- Translation of `guessContentSize`: a cheap remaining-length hint for
the closed set of known reader types, 0 when no hint is available. -/
def guessContentSize : Reader → Int
  | .buffer d => (d.length : Int)
  | .stringsReader d => (d.length : Int)
  | .file statOk regular size _ => if statOk = false ∨ regular = false then 0 else size
  | .sectionReader pos size _ => size - pos
  | .limitedReader r n =>
      let g := guessContentSize r
      if g = 0 ∨ g < n then g else n
  | .other _ => 0

/-- The bytes a successful `io.Copy` from the reader transfers. -/
def readAll : Reader → Bytes
  | .buffer d => d
  | .stringsReader d => d
  | .file _ _ _ d => d
  | .sectionReader _ _ d => d
  | .limitedReader r n => (readAll r).take n.toNat
  | .other d => d

/-- A regular file: contents plus the metadata `Create` can set. -/
structure File where
  data : Bytes
  perm : Nat
  uid : Int
  gid : Int
  xattrs : List (String × Bytes)
  mtime : Timespec
  atime : Timespec
deriving Repr, DecidableEq

/-- The directory namespace: which regular file, if any, each path names. -/
def FS := String → Option File

/-- The `config` struct accumulated by the options. -/
structure Config where
  contents : Option Reader
  flushData : Bool
  prealloc : Int
  xattrs : List (String × Bytes)
  perm : Nat
  uid : Int
  gid : Int
  mtime : Timespec
  atime : Timespec

/-- Translation of `defaultConfig()`. -/
def defaultConfig : Config :=
  { contents := none
    flushData := false
    prealloc := 0
    xattrs := []
    perm := permUnset
    uid := -1
    gid := -1
    mtime := omitTs
    atime := omitTs }

/-- The option constructors. `ModificationTime`/`AccessTime` take the
already-converted `unix.Timespec` (the `TimeToTimespec` conversion succeeds
for every time representable in a timespec). `Permissions` takes the raw
`os.FileMode` bits as a `Nat`. -/
inductive Opt where
  | contents (r : Reader)
  | fsync
  | preallocate (size : Int)
  | xattr (name : String) (value : Bytes)
  | permissions (mode : Nat)
  | ownership (uid gid : Int)
  | modificationTime (t : Timespec)
  | accessTime (t : Timespec)

/-- Translation of `Option.apply`: each constructor's closure over the config,
clause by clause from the source. -/
def applyOpt : Opt → Config → Except Err Config
  | .contents r, c =>
      if c.contents.isSome then .error (.werror0 "multiple contents")
      else .ok { c with contents := some r }
  | .fsync, c => .ok { c with flushData := true }
  | .preallocate size, c =>
      if c.prealloc ≠ defaultConfig.prealloc then .error (.werror0 "multiple preallocations")
      else if size < 0 then .error (.werror0 "invalid preallocation size")
      else .ok { c with prealloc := size }
  | .xattr name value, c => .ok { c with xattrs := c.xattrs ++ [(name, value)] }
  | .permissions mode, c =>
      if c.perm ≠ defaultConfig.perm then .error (.werror0 "multiple permissions")
      else .ok { c with perm := mode &&& 0o777 }
  | .ownership uid gid, c =>
      if c.uid ≠ defaultConfig.uid ∨ c.gid ≠ defaultConfig.gid then
        .error (.werror0 "multiple ownership")
      else .ok { c with uid := uid, gid := gid }
  | .modificationTime t, c =>
      if c.mtime ≠ defaultConfig.mtime then .error (.werror0 "multiple modification times")
      else .ok { c with mtime := t }
  | .accessTime t, c =>
      if c.atime ≠ defaultConfig.atime then .error (.werror0 "multiple access times")
      else .ok { c with atime := t }

/-- The option-application loop at the head of `Create` (fail-fast, raw
error returned; `Create` wraps it as `werror{"options", err}`). -/
def applyOpts : List Opt → Config → Except Err Config
  | [], c => .ok c
  | o :: os, c =>
      match applyOpt o c with
      | .error e => .error e
      | .ok c2 => applyOpts os c2

/-- Outcomes of the individual syscalls, one knob per call site (xattrs are
indexed by position in the accumulated list). `procUid`/`procGid` are the
creating process's credentials, `now` the filesystem timestamp given to the
fresh anonymous file. -/
structure Sys where
  procUid : Int := 0
  procGid : Int := 0
  now : Timespec := ⟨0, 0⟩
  openDirOk : Bool := true
  openTmpOk : Bool := true
  fchownOk : Bool := true
  fchmodOk : Bool := true
  fallocateOk : Bool := true
  copyOk : Bool := true
  xattrOk : Nat → Bool := fun _ => true
  futimensOk : Bool := true
  fsyncFileOk : Bool := true
  linkatEmptySupported : Bool := true
  linkatProcOk : Bool := true
  fsyncDirOk : Bool := true

/-- The observable syscall events, in the order `Create` attempts them. -/
inductive Ev where
  | openDir
  | openTmp
  | fchown (uid gid : Int)
  | fchmod (perm : Nat)
  | fallocate (off len : Int)
  | copy
  | punchHole (off len : Int)
  | fsetxattr (name : String) (value : Bytes)
  | futimens (atime mtime : Timespec)
  | fsyncFile
  | linkatEmptyPath (target : String)
  | linkatProcPath (target : String)
  | fsyncDir
deriving Repr, DecidableEq

/-- The mutable state of one `Create` invocation: the staged anonymous file
(the inode reachable only through the descriptor `f`), the locals `prealloc`
and `written`, the trace of attempted syscalls, and the namespace. -/
structure St where
  staged : File
  prealloc : Int := 0
  written : Int := 0
  tr : List Ev := []
  fs : FS

def emit (e : Ev) (st : St) : St := { st with tr := st.tr ++ [e] }

abbrev Step := St → Except Err Unit × St

/-- Runs pipeline steps in order, stopping at the first failure. -/
def runSteps : List Step → St → Except Err Unit × St
  | [], st => (.ok (), st)
  | s :: ss, st =>
      match s st with
      | (.ok _, st2) => runSteps ss st2
      | (.error e, st2) => (.error e, st2)

/-- The call `linkat(fd, "", AT_FDCWD, filename, AT_EMPTY_PATH)`: fails when the
primitive is unsupported for the descriptor/filesystem, fails with `EEXIST`
when the target name exists, otherwise links the staged inode. -/
def linkatEmpty (sys : Sys) (fs : FS) (fname : String) : Except Errno Unit :=
  if sys.linkatEmptySupported = false then .error .ENOTSUP
  else if (fs fname).isSome then .error .EEXIST
  else .ok ()

/-- The call `linkat(AT_FDCWD, "/proc/self/fd/<fd>", AT_FDCWD, filename,
AT_SYMLINK_FOLLOW)`: fails when the proc pseudo-path cannot be resolved,
fails with `EEXIST` when the target name exists, otherwise links. -/
def linkatProc (sys : Sys) (fs : FS) (fname : String) : Except Errno Unit :=
  if sys.linkatProcOk = false then .error .ENOENT
  else if (fs fname).isSome then .error .EEXIST
  else .ok ()

/-- Linking the staged file under `fname`: the only operation of the whole
pipeline that modifies the namespace. -/
def publish (fs : FS) (fname : String) (f : File) : FS :=
  fun p => if p = fname then some f else fs p

/-- The call `os.OpenFile(dir, O_DIRECTORY|O_RDONLY, 0)`, only when `cfg.flushData`. -/
def stepOpenDir (cfg : Config) (sys : Sys) : Step := fun st =>
  if cfg.flushData then
    let st2 := emit .openDir st
    if sys.openDirOk then (.ok (), st2)
    else (.error (.werror "opening directory" (.errno .EACCES)), st2)
  else (.ok (), st)

/-- The anonymous file as `O_TMPFILE` stages it: empty, mode 0666, owned
by the creating process, no extended attributes, current timestamps. -/
def freshFile (sys : Sys) : File :=
  { data := []
    perm := 0o666
    uid := sys.procUid
    gid := sys.procGid
    xattrs := []
    mtime := sys.now
    atime := sys.now }

/-- The call `os.OpenFile(dir, O_TMPFILE|O_APPEND|O_WRONLY, 0o666)`: stages a fresh
anonymous file. -/
def stepOpenTmp (sys : Sys) : Step := fun st =>
  let st2 := emit .openTmp st
  if sys.openTmpOk then (.ok (), { st2 with staged := freshFile sys })
  else (.error (.werror "opening file" (.errno .ENOTSUP)), st2)

/-- The call `unix.Fchown(fd, cfg.uid, cfg.gid)` when either id was requested. -/
def stepOwnership (cfg : Config) (sys : Sys) : Step := fun st =>
  if cfg.uid ≠ defaultConfig.uid ∨ cfg.gid ≠ defaultConfig.gid then
    let st2 := emit (.fchown cfg.uid cfg.gid) st
    if sys.fchownOk then
      (.ok (), { st2 with staged := { st2.staged with uid := cfg.uid, gid := cfg.gid } })
    else (.error (.werror "setting ownership" (.errno .EACCES)), st2)
  else (.ok (), st)

/-- The call `unix.Fchmod(fd, cfg.perm)` when permissions were requested. -/
def stepPermissions (cfg : Config) (sys : Sys) : Step := fun st =>
  if cfg.perm ≠ defaultConfig.perm then
    let st2 := emit (.fchmod cfg.perm) st
    if sys.fchmodOk then
      (.ok (), { st2 with staged := { st2.staged with perm := cfg.perm } })
    else (.error (.werror "setting permissions" (.errno .EACCES)), st2)
  else (.ok (), st)

/-- The local `prealloc` after the size-guess block: the explicit size, or
the content-length guess when no explicit size was set and content is
available with a positive guess. -/
def effPrealloc (cfg : Config) : Int :=
  match cfg.contents with
  | some r =>
      if cfg.prealloc = defaultConfig.prealloc ∧ (guessContentSize r) > 0 then
        guessContentSize r
      else cfg.prealloc
  | none => cfg.prealloc

/-- The call `unix.Fallocate(fd, FALLOC_FL_KEEP_SIZE, 0, prealloc)` when the
effective preallocation is positive; on failure the local is zeroed and the
error is fatal only when the preallocation was explicit. -/
def stepPrealloc (cfg : Config) (sys : Sys) : Step := fun st =>
  let pre := effPrealloc cfg
  if pre > 0 then
    let st2 := emit (.fallocate 0 pre) st
    if sys.fallocateOk then (.ok (), { st2 with prealloc := pre })
    else
      if cfg.prealloc > 0 then
        (.error (.werror "preallocating file" (.errno .ENOSPC)), { st2 with prealloc := 0 })
      else (.ok (), { st2 with prealloc := 0 })
  else (.ok (), { st with prealloc := pre })

/-- The call `io.Copy(f, cfg.contents)` when content was supplied: appends the
content bytes to the staged file and records the amount written. -/
def stepCopy (cfg : Config) (sys : Sys) : Step := fun st =>
  match cfg.contents with
  | some r =>
      let st2 := emit .copy st
      if sys.copyOk then
        (.ok (), { st2 with
          staged := { st2.staged with data := st2.staged.data ++ readAll r }
          written := ((readAll r).length : Int) })
      else (.error (.werror "populating file" (.errno .EIOFAIL)), st2)
  | none => (.ok (), st)

/-- The call `unix.Fallocate(fd, FALLOC_FL_PUNCH_HOLE|FALLOC_FL_KEEP_SIZE, written,
prealloc-written)` when fewer bytes were written than explicitly
preallocated; its error is ignored, and punching beyond the end of the data
leaves the contents unchanged. -/
def stepPunchHole (cfg : Config) : Step := fun st =>
  if st.written < st.prealloc ∧ cfg.prealloc > 0 then
    (.ok (), emit (.punchHole st.written (st.prealloc - st.written)) st)
  else (.ok (), st)

/-- The `Fsetxattr` loop over `cfg.xattrs`, in list order, aborting at the
first failure (`i` indexes the syscall outcome knob). -/
def stepXattrsAux (sys : Sys) : List (String × Bytes) → Nat → Step
  | [], _ => fun st => (.ok (), st)
  | x :: rest, i => fun st =>
      let st2 := emit (.fsetxattr x.1 x.2) st
      if sys.xattrOk i then
        stepXattrsAux sys rest (i + 1)
          { st2 with staged := { st2.staged with xattrs := st2.staged.xattrs ++ [x] } }
      else (.error (.werror "setting xattr" (.errno .ENOTSUP)), st2)

def stepXattrs (cfg : Config) (sys : Sys) : Step := stepXattrsAux sys cfg.xattrs 0

/-- The call `futimens(fd, (cfg.atime, cfg.mtime))` when either timestamp was
requested; a `UTIME_OMIT` slot leaves that timestamp unchanged. -/
def stepTimes (cfg : Config) (sys : Sys) : Step := fun st =>
  if cfg.mtime ≠ defaultConfig.mtime ∨ cfg.atime ≠ defaultConfig.atime then
    let st2 := emit (.futimens cfg.atime cfg.mtime) st
    if sys.futimensOk then
      (.ok (), { st2 with staged := { st2.staged with
        atime := if cfg.atime.nsec = UTIME_OMIT then st2.staged.atime else cfg.atime
        mtime := if cfg.mtime.nsec = UTIME_OMIT then st2.staged.mtime else cfg.mtime } })
    else (.error (.werror "setting access/modification time" (.errno .EACCES)), st2)
  else (.ok (), st)

/-- The call `f.Sync()` when durability was requested. -/
def stepFsyncFile (cfg : Config) (sys : Sys) : Step := fun st =>
  if cfg.flushData then
    let st2 := emit .fsyncFile st
    if sys.fsyncFileOk then (.ok (), st2)
    else (.error (.werror "fsync file" (.errno .EIOFAIL)), st2)
  else (.ok (), st)

/-- Publication: the fd-addressed `linkat` with `AT_EMPTY_PATH`, and on any
failure exactly one fallback through `/proc/self/fd` with
`AT_SYMLINK_FOLLOW`; the fallback's error is the one surfaced. -/
def stepLink (sys : Sys) (fname : String) : Step := fun st =>
  let st1 := emit (.linkatEmptyPath fname) st
  match linkatEmpty sys st1.fs fname with
  | .ok _ => (.ok (), { st1 with fs := publish st1.fs fname st1.staged })
  | .error _ =>
      let st2 := emit (.linkatProcPath fname) st1
      match linkatProc sys st2.fs fname with
      | .ok _ => (.ok (), { st2 with fs := publish st2.fs fname st2.staged })
      | .error e2 => (.error (.werror "linking file" (.errno e2)), st2)

/-- The call `d.Sync()` when durability was requested. -/
def stepFsyncDir (cfg : Config) (sys : Sys) : Step := fun st =>
  if cfg.flushData then
    let st2 := emit .fsyncDir st
    if sys.fsyncDirOk then (.ok (), st2)
    else (.error (.werror "fsync directory" (.errno .EIOFAIL)), st2)
  else (.ok (), st)

/-- The `Create` pipeline after option accumulation, in source order. -/
def stepsOf (cfg : Config) (sys : Sys) (fname : String) : List Step :=
  [stepOpenDir cfg sys, stepOpenTmp sys, stepOwnership cfg sys,
   stepPermissions cfg sys, stepPrealloc cfg sys, stepCopy cfg sys,
   stepPunchHole cfg, stepXattrs cfg sys, stepTimes cfg sys,
   stepFsyncFile cfg sys, stepLink sys fname, stepFsyncDir cfg sys]

def dummyFile : File :=
  { data := [], perm := 0, uid := 0, gid := 0, xattrs := [], mtime := ⟨0, 0⟩, atime := ⟨0, 0⟩ }

/-- The `Create` pipeline run on an already-accumulated config. -/
def createC (sys : Sys) (fs : FS) (fname : String) (cfg : Config) :
    Except Err Unit × St :=
  runSteps (stepsOf cfg sys fname) { staged := dummyFile, fs := fs }

/-- Translation of `Create(filename, options...)`: accumulates the options (fail-fast,
wrapping any failure as `werror{"options", err}` before any filesystem
interaction), then runs the staging-to-publication pipeline. Returns the
result, the trace of attempted syscalls, and the final namespace. -/
def create (sys : Sys) (fs : FS) (fname : String) (options : List Opt) :
    Except Err Unit × List Ev × FS :=
  match applyOpts options defaultConfig with
  | .error e => (.error (.werror "options" e), [], fs)
  | .ok cfg =>
      let out := createC sys fs fname cfg
      (out.1, out.2.tr, out.2.fs)

/-! ## Derived descriptions of a run's outputs -/

/-- Ownership was requested (either id differs from the `-1` sentinel). -/
abbrev ownReq (cfg : Config) : Prop :=
  cfg.uid ≠ defaultConfig.uid ∨ cfg.gid ≠ defaultConfig.gid

/-- Permissions were requested (field differs from the `^uint32(0)` sentinel). -/
abbrev permReq (cfg : Config) : Prop := cfg.perm ≠ defaultConfig.perm

/-- A timestamp was requested (either field differs from the omit sentinel). -/
abbrev timesReq (cfg : Config) : Prop :=
  cfg.mtime ≠ defaultConfig.mtime ∨ cfg.atime ≠ defaultConfig.atime

/-- The bytes the content source yields (empty when no content was given). -/
def contentBytes (cfg : Config) : Bytes :=
  match cfg.contents with
  | some r => readAll r
  | none => []

/-- The local `written` after the copy step. -/
def writtenOf (cfg : Config) : Int := ((contentBytes cfg).length : Int)

/-- The local `prealloc` after the allocation attempt (zeroed on failure). -/
def preAfterFalloc (cfg : Config) (sys : Sys) : Int :=
  if effPrealloc cfg > 0 ∧ sys.fallocateOk = false then 0 else effPrealloc cfg

/-- The hole-punch condition: fewer bytes written than remain allocated,
and the preallocation was explicit. -/
abbrev punchCond (cfg : Config) (sys : Sys) : Prop :=
  writtenOf cfg < preAfterFalloc cfg sys ∧ cfg.prealloc > 0

/-- Staged file after the ownership step. -/
def stagedOwn (cfg : Config) (sys : Sys) : File :=
  if ownReq cfg then { freshFile sys with uid := cfg.uid, gid := cfg.gid }
  else freshFile sys

/-- Staged file after the permissions step. -/
def stagedPerm (cfg : Config) (sys : Sys) : File :=
  if permReq cfg then { stagedOwn cfg sys with perm := cfg.perm }
  else stagedOwn cfg sys

/-- Staged file after the content copy. -/
def stagedCopy (cfg : Config) (sys : Sys) : File :=
  { stagedPerm cfg sys with data := (stagedPerm cfg sys).data ++ contentBytes cfg }

/-- Staged file after the extended-attribute loop. -/
def stagedX (cfg : Config) (sys : Sys) : File :=
  { stagedCopy cfg sys with xattrs := (stagedCopy cfg sys).xattrs ++ cfg.xattrs }

/-- The fully populated staged file as it is published. -/
def expectedFile (cfg : Config) (sys : Sys) : File :=
  if timesReq cfg then
    { stagedX cfg sys with
      atime := if cfg.atime.nsec = UTIME_OMIT then (stagedX cfg sys).atime else cfg.atime
      mtime := if cfg.mtime.nsec = UTIME_OMIT then (stagedX cfg sys).mtime else cfg.mtime }
  else stagedX cfg sys

/-- Syscalls attempted up to and including the permissions step. -/
def trace4 (cfg : Config) : List Ev :=
  (if cfg.flushData then [.openDir] else []) ++ [.openTmp]
    ++ (if ownReq cfg then [.fchown cfg.uid cfg.gid] else [])
    ++ (if permReq cfg then [.fchmod cfg.perm] else [])

/-- Syscalls attempted after staging and before the optional file flush. -/
def preB (cfg : Config) (sys : Sys) : List Ev :=
  trace4 cfg
    ++ (if effPrealloc cfg > 0 then [.fallocate 0 (effPrealloc cfg)] else [])
    ++ (if cfg.contents.isSome then [.copy] else [])
    ++ (if punchCond cfg sys then
          [.punchHole (writtenOf cfg) (preAfterFalloc cfg sys - writtenOf cfg)] else [])
    ++ cfg.xattrs.map (fun x => .fsetxattr x.1 x.2)
    ++ (if timesReq cfg then [.futimens cfg.atime cfg.mtime] else [])

/-- Syscalls attempted before the publication step. -/
def preTrace (cfg : Config) (sys : Sys) : List Ev :=
  preB cfg sys ++ (if cfg.flushData then [.fsyncFile] else [])

/-- The publication attempts: the fd-addressed link, plus the proc-path
fallback exactly when the primitive is unsupported (the target is assumed
absent here, so an existing name is not what makes the primary fail). -/
def linkEvs (sys : Sys) (fname : String) : List Ev :=
  if sys.linkatEmptySupported then [.linkatEmptyPath fname]
  else [.linkatEmptyPath fname, .linkatProcPath fname]

/-- The full syscall trace of a successful run. -/
def expectedTrace (cfg : Config) (sys : Sys) (fname : String) : List Ev :=
  preTrace cfg sys ++ linkEvs sys fname ++ (if cfg.flushData then [.fsyncDir] else [])

/-- All syscalls up to the publication step succeed (implicit preallocation
is allowed to fail: only an explicit request needs `fallocateOk`). -/
def goodPre (cfg : Config) (sys : Sys) : Prop :=
  (cfg.flushData = true → sys.openDirOk = true)
  ∧ sys.openTmpOk = true
  ∧ (ownReq cfg → sys.fchownOk = true)
  ∧ (permReq cfg → sys.fchmodOk = true)
  ∧ (cfg.prealloc > 0 → sys.fallocateOk = true)
  ∧ (cfg.contents.isSome = true → sys.copyOk = true)
  ∧ (∀ i, i < cfg.xattrs.length → sys.xattrOk i = true)
  ∧ (timesReq cfg → sys.futimensOk = true)
  ∧ (cfg.flushData = true → sys.fsyncFileOk = true)

/-- A run in which every needed syscall succeeds and the target is free. -/
def goodRun (cfg : Config) (sys : Sys) (fs : FS) (fname : String) : Prop :=
  goodPre cfg sys
  ∧ (sys.linkatEmptySupported = true ∨ sys.linkatProcOk = true)
  ∧ (cfg.flushData = true → sys.fsyncDirOk = true)
  ∧ fs fname = none

/-! ## Equations for the pipeline steps -/

theorem runSteps_cons_ok {s : Step} {ss : List Step} {st st2 : St}
    (h : s st = (.ok (), st2)) : runSteps (s :: ss) st = runSteps ss st2 := by
  simp [runSteps, h]

theorem runSteps_cons_err {s : Step} {ss : List Step} {st st2 : St} {e : Err}
    (h : s st = (.error e, st2)) : runSteps (s :: ss) st = (.error e, st2) := by
  simp [runSteps, h]

theorem stepOpenDir_eq {cfg : Config} {sys : Sys}
    (h : cfg.flushData = true → sys.openDirOk = true) (st : St) :
    stepOpenDir cfg sys st =
      (.ok (), { st with tr := st.tr ++ (if cfg.flushData then [.openDir] else []) }) := by
  by_cases hf : cfg.flushData = true
  · simp [stepOpenDir, emit, hf, h hf]
  · simp only [Bool.not_eq_true] at hf
    simp [stepOpenDir, hf]

theorem stepOpenTmp_eq {sys : Sys} (h : sys.openTmpOk = true) (st : St) :
    stepOpenTmp sys st =
      (.ok (), { st with tr := st.tr ++ [.openTmp], staged := freshFile sys }) := by
  simp [stepOpenTmp, emit, h]

theorem stepOwnership_eq {cfg : Config} {sys : Sys}
    (h : ownReq cfg → sys.fchownOk = true) (st : St) :
    stepOwnership cfg sys st =
      (.ok (), { st with
        tr := st.tr ++ (if ownReq cfg then [.fchown cfg.uid cfg.gid] else [])
        staged := if ownReq cfg then { st.staged with uid := cfg.uid, gid := cfg.gid }
                  else st.staged }) := by
  by_cases ho : ownReq cfg
  · simp [stepOwnership, emit, ho, h ho]
  · simp [stepOwnership, emit, ho]

theorem stepPermissions_eq {cfg : Config} {sys : Sys}
    (h : permReq cfg → sys.fchmodOk = true) (st : St) :
    stepPermissions cfg sys st =
      (.ok (), { st with
        tr := st.tr ++ (if permReq cfg then [.fchmod cfg.perm] else [])
        staged := if permReq cfg then { st.staged with perm := cfg.perm } else st.staged }) := by
  by_cases hp : permReq cfg
  · simp [stepPermissions, emit, hp, h hp]
  · simp [stepPermissions, emit, hp]

theorem stepPrealloc_eq {cfg : Config} {sys : Sys}
    (h : cfg.prealloc > 0 → sys.fallocateOk = true) (st : St) :
    stepPrealloc cfg sys st =
      (.ok (), { st with
        tr := st.tr ++ (if effPrealloc cfg > 0 then [.fallocate 0 (effPrealloc cfg)] else [])
        prealloc := preAfterFalloc cfg sys }) := by
  by_cases hp : effPrealloc cfg > 0
  · by_cases hk : sys.fallocateOk = true
    · simp [stepPrealloc, emit, hp, hk, preAfterFalloc]
    · have hcp : ¬ cfg.prealloc > 0 := fun hc => hk (h hc)
      simp only [Bool.not_eq_true] at hk
      simp [stepPrealloc, emit, hp, hk, hcp, preAfterFalloc]
  · simp [stepPrealloc, emit, hp, preAfterFalloc]

theorem stepCopy_eq {cfg : Config} {sys : Sys}
    (h : cfg.contents.isSome = true → sys.copyOk = true) (st : St) :
    stepCopy cfg sys st =
      (.ok (), { st with
        tr := st.tr ++ (if cfg.contents.isSome then [.copy] else [])
        staged := { st.staged with data := st.staged.data ++ contentBytes cfg }
        written := if cfg.contents.isSome then writtenOf cfg else st.written }) := by
  match hc : cfg.contents with
  | some r =>
      have hk := h (by simp [hc])
      simp [stepCopy, emit, hc, hk, contentBytes, writtenOf]
  | none => simp [stepCopy, emit, hc, contentBytes]

theorem stepPunchHole_eq (cfg : Config) (st : St) :
    stepPunchHole cfg st =
      (.ok (), { st with
        tr := st.tr ++ (if st.written < st.prealloc ∧ cfg.prealloc > 0 then
          [.punchHole st.written (st.prealloc - st.written)] else []) }) := by
  by_cases hp : st.written < st.prealloc ∧ cfg.prealloc > 0
  · simp [stepPunchHole, emit, hp]
  · simp [stepPunchHole, emit, hp]

theorem stepXattrsAux_eq (sys : Sys) (xs : List (String × Bytes)) (i : Nat)
    (h : ∀ j, j < xs.length → sys.xattrOk (i + j) = true) (st : St) :
    stepXattrsAux sys xs i st =
      (.ok (), { st with
        tr := st.tr ++ xs.map (fun x => .fsetxattr x.1 x.2)
        staged := { st.staged with xattrs := st.staged.xattrs ++ xs } }) := by
  induction xs generalizing i st with
  | nil => simp [stepXattrsAux]
  | cons x rest ih =>
      have h0 : sys.xattrOk (i + 0) = true := h 0 (by simp)
      simp only [Nat.add_zero] at h0
      have hrest : ∀ j, j < rest.length → sys.xattrOk (i + 1 + j) = true := by
        intro j hj
        have := h (j + 1) (by simpa using Nat.succ_lt_succ hj)
        simpa [Nat.add_assoc, Nat.add_comm 1 j] using this
      simp [stepXattrsAux, emit, h0, ih (i + 1) hrest]

theorem stepXattrs_eq {cfg : Config} {sys : Sys}
    (h : ∀ j, j < cfg.xattrs.length → sys.xattrOk j = true) (st : St) :
    stepXattrs cfg sys st =
      (.ok (), { st with
        tr := st.tr ++ cfg.xattrs.map (fun x => .fsetxattr x.1 x.2)
        staged := { st.staged with xattrs := st.staged.xattrs ++ cfg.xattrs } }) := by
  have := stepXattrsAux_eq sys cfg.xattrs 0 (by simpa using h) st
  simpa [stepXattrs] using this

theorem stepTimes_eq {cfg : Config} {sys : Sys}
    (h : timesReq cfg → sys.futimensOk = true) (st : St) :
    stepTimes cfg sys st =
      (.ok (), { st with
        tr := st.tr ++ (if timesReq cfg then [.futimens cfg.atime cfg.mtime] else [])
        staged := if timesReq cfg then
            { st.staged with
              atime := if cfg.atime.nsec = UTIME_OMIT then st.staged.atime else cfg.atime
              mtime := if cfg.mtime.nsec = UTIME_OMIT then st.staged.mtime else cfg.mtime }
          else st.staged }) := by
  by_cases ht : timesReq cfg
  · simp [stepTimes, emit, ht, h ht]
  · simp [stepTimes, emit, ht]

theorem stepFsyncFile_eq {cfg : Config} {sys : Sys}
    (h : cfg.flushData = true → sys.fsyncFileOk = true) (st : St) :
    stepFsyncFile cfg sys st =
      (.ok (), { st with tr := st.tr ++ (if cfg.flushData then [.fsyncFile] else []) }) := by
  by_cases hf : cfg.flushData = true
  · simp [stepFsyncFile, emit, hf, h hf]
  · simp only [Bool.not_eq_true] at hf
    simp [stepFsyncFile, hf]

theorem stepFsyncDir_eq {cfg : Config} {sys : Sys}
    (h : cfg.flushData = true → sys.fsyncDirOk = true) (st : St) :
    stepFsyncDir cfg sys st =
      (.ok (), { st with tr := st.tr ++ (if cfg.flushData then [.fsyncDir] else []) }) := by
  by_cases hf : cfg.flushData = true
  · simp [stepFsyncDir, emit, hf, h hf]
  · simp only [Bool.not_eq_true] at hf
    simp [stepFsyncDir, hf]

theorem stepLink_free_eq {sys : Sys} {fname : String} (st : St)
    (hfree : st.fs fname = none)
    (h : sys.linkatEmptySupported = true ∨ sys.linkatProcOk = true) :
    stepLink sys fname st =
      (.ok (), { st with
        tr := st.tr ++ linkEvs sys fname
        fs := publish st.fs fname st.staged }) := by
  by_cases hs : sys.linkatEmptySupported = true
  · simp [stepLink, linkatEmpty, emit, hs, hfree, linkEvs]
  · have hp : sys.linkatProcOk = true := h.resolve_left hs
    simp only [Bool.not_eq_true] at hs
    simp [stepLink, linkatEmpty, linkatProc, emit, hs, hp, hfree, linkEvs]

theorem ite_writtenOf (cfg : Config) :
    (if cfg.contents.isSome then writtenOf cfg else (0 : Int)) = writtenOf cfg := by
  match h : cfg.contents with
  | some r => simp [h]
  | none => simp [h, writtenOf, contentBytes]

/-- Under `goodPre`, the pipeline reaches publication with the staged file
fully populated, the pre-publication trace emitted, and the namespace
untouched. -/
theorem createC_to_link {cfg : Config} {sys : Sys} {fs : FS} {fname : String}
    (h : goodPre cfg sys) :
    createC sys fs fname cfg =
      runSteps [stepLink sys fname, stepFsyncDir cfg sys]
        { staged := expectedFile cfg sys
          prealloc := preAfterFalloc cfg sys
          written := writtenOf cfg
          tr := preTrace cfg sys
          fs := fs } := by
  obtain ⟨h1, h2, h3, h4, h5, h6, h7, h8, h9⟩ := h
  rw [createC, stepsOf,
    runSteps_cons_ok (stepOpenDir_eq h1 _),
    runSteps_cons_ok (stepOpenTmp_eq h2 _),
    runSteps_cons_ok (stepOwnership_eq h3 _),
    runSteps_cons_ok (stepPermissions_eq h4 _),
    runSteps_cons_ok (stepPrealloc_eq h5 _),
    runSteps_cons_ok (stepCopy_eq h6 _),
    runSteps_cons_ok (stepPunchHole_eq _ _),
    runSteps_cons_ok (stepXattrs_eq h7 _),
    runSteps_cons_ok (stepTimes_eq h8 _),
    runSteps_cons_ok (stepFsyncFile_eq h9 _)]
  simp only [ite_writtenOf]
  congr 2

/-- Master characterization of a successful run: under `goodRun`, `Create`
succeeds, attempts exactly the expected syscalls in the expected order, and
publishes the fully populated staged file at the target name. -/
theorem createC_master {cfg : Config} {sys : Sys} {fs : FS} {fname : String}
    (h : goodRun cfg sys fs fname) :
    createC sys fs fname cfg =
      (.ok (), { staged := expectedFile cfg sys
                 prealloc := preAfterFalloc cfg sys
                 written := writtenOf cfg
                 tr := expectedTrace cfg sys fname
                 fs := publish fs fname (expectedFile cfg sys) }) := by
  obtain ⟨hpre, hlink, hdir, hfree⟩ := h
  rw [createC_to_link hpre,
    runSteps_cons_ok (stepLink_free_eq _ hfree hlink),
    runSteps_cons_ok (stepFsyncDir_eq hdir _)]
  simp [runSteps, expectedTrace, List.append_assoc]

/-! ## Preservation and inversion machinery -/

theorem runSteps_pres (P : St → Prop) (steps : List Step)
    (hsteps : ∀ s ∈ steps, ∀ st, P st → P ((s st).2)) :
    ∀ st, P st → P ((runSteps steps st).2) := by
  induction steps with
  | nil => intro st h; simpa [runSteps] using h
  | cons s ss ih =>
      intro st h
      have hstep := hsteps s (by simp) st h
      have hrest := fun st2 h2 => ih (fun t ht => hsteps t (by simp [ht]) ) st2 h2
      rcases hs : s st with ⟨r, st2⟩
      match r with
      | .ok _ =>
          have : runSteps (s :: ss) st = runSteps ss st2 := by simp [runSteps, hs]
          rw [this]
          exact hrest st2 (by rw [hs] at hstep; exact hstep)
      | .error e =>
          have : runSteps (s :: ss) st = (.error e, st2) := by simp [runSteps, hs]
          rw [this]
          rw [hs] at hstep
          exact hstep

theorem runSteps_cons_ok_inv {s : Step} {ss : List Step} {st : St}
    (h : (runSteps (s :: ss) st).1 = .ok ()) :
    ∃ st2, s st = (.ok (), st2) ∧ runSteps (s :: ss) st = runSteps ss st2 := by
  rcases hs : s st with ⟨r, st2⟩
  match r with
  | .ok u =>
      cases u
      exact ⟨st2, rfl, by simp [runSteps, hs]⟩
  | .error e =>
      exfalso
      have : runSteps (s :: ss) st = (.error e, st2) := by simp [runSteps, hs]
      rw [this] at h
      simp at h

theorem stepOpenDir_fs (cfg : Config) (sys : Sys) (st : St) :
    ((stepOpenDir cfg sys st).2).fs = st.fs := by
  unfold stepOpenDir emit
  repeat' split
  all_goals rfl

theorem stepOpenTmp_fs (sys : Sys) (st : St) :
    ((stepOpenTmp sys st).2).fs = st.fs := by
  unfold stepOpenTmp emit; split <;> rfl

theorem stepOwnership_fs (cfg : Config) (sys : Sys) (st : St) :
    ((stepOwnership cfg sys st).2).fs = st.fs := by
  unfold stepOwnership emit; split <;> try split
  all_goals rfl

theorem stepPermissions_fs (cfg : Config) (sys : Sys) (st : St) :
    ((stepPermissions cfg sys st).2).fs = st.fs := by
  unfold stepPermissions emit; split <;> try split
  all_goals rfl

theorem stepPrealloc_fs (cfg : Config) (sys : Sys) (st : St) :
    ((stepPrealloc cfg sys st).2).fs = st.fs := by
  unfold stepPrealloc emit
  dsimp only
  repeat' split
  all_goals rfl

theorem stepCopy_fs (cfg : Config) (sys : Sys) (st : St) :
    ((stepCopy cfg sys st).2).fs = st.fs := by
  unfold stepCopy emit
  repeat' split
  all_goals rfl

theorem stepPunchHole_fs (cfg : Config) (st : St) :
    ((stepPunchHole cfg st).2).fs = st.fs := by
  unfold stepPunchHole emit; split <;> rfl

theorem stepXattrsAux_fs {sys : Sys} (xs : List (String × Bytes)) (i : Nat) (st : St) :
    ((stepXattrsAux sys xs i st).2).fs = st.fs := by
  induction xs generalizing i st with
  | nil => rfl
  | cons x rest ih =>
      unfold stepXattrsAux emit
      split
      · exact ih (i + 1) _
      · rfl

theorem stepXattrs_fs (cfg : Config) (sys : Sys) (st : St) :
    ((stepXattrs cfg sys st).2).fs = st.fs := stepXattrsAux_fs cfg.xattrs 0 st

theorem stepTimes_fs (cfg : Config) (sys : Sys) (st : St) :
    ((stepTimes cfg sys st).2).fs = st.fs := by
  unfold stepTimes emit; split <;> try split
  all_goals rfl

theorem stepFsyncFile_fs (cfg : Config) (sys : Sys) (st : St) :
    ((stepFsyncFile cfg sys st).2).fs = st.fs := by
  unfold stepFsyncFile emit; split <;> try split
  all_goals rfl

theorem stepFsyncDir_fs (cfg : Config) (sys : Sys) (st : St) :
    ((stepFsyncDir cfg sys st).2).fs = st.fs := by
  unfold stepFsyncDir emit; split <;> try split
  all_goals rfl

/-- Publication against an occupied target name: both `linkat` attempts
fail, the namespace is untouched, and the surfaced error wraps the
fallback's errno (`EEXIST` whenever the proc pseudo-path is resolvable). -/
theorem stepLink_exists (sys : Sys) (st : St) {fname : String} {f0 : File}
    (h : st.fs fname = some f0) :
    ((stepLink sys fname st).2).fs = st.fs
    ∧ (stepLink sys fname st).1 =
        .error (.werror "linking file"
          (.errno (if sys.linkatProcOk then .EEXIST else .ENOENT))) := by
  have hsome : (st.fs fname).isSome := by simp [h]
  by_cases hs : sys.linkatEmptySupported = true
  · by_cases hp : sys.linkatProcOk = true
    · simp [stepLink, linkatEmpty, linkatProc, emit, hs, hp, hsome]
    · simp only [Bool.not_eq_true] at hp
      simp [stepLink, linkatEmpty, linkatProc, emit, hs, hp, hsome]
  · simp only [Bool.not_eq_true] at hs
    by_cases hp : sys.linkatProcOk = true
    · simp [stepLink, linkatEmpty, linkatProc, emit, hs, hp, hsome]
    · simp only [Bool.not_eq_true] at hp
      simp [stepLink, linkatEmpty, linkatProc, emit, hs, hp, hsome]

theorem stepOpenDir_staged (cfg : Config) (sys : Sys) (st : St) :
    ((stepOpenDir cfg sys st).2).staged = st.staged := by
  unfold stepOpenDir emit
  repeat' split
  all_goals rfl

theorem stepOwnership_data (cfg : Config) (sys : Sys) (st : St) :
    ((stepOwnership cfg sys st).2).staged.data = st.staged.data := by
  unfold stepOwnership emit
  repeat' split
  all_goals rfl

theorem stepPermissions_data (cfg : Config) (sys : Sys) (st : St) :
    ((stepPermissions cfg sys st).2).staged.data = st.staged.data := by
  unfold stepPermissions emit
  repeat' split
  all_goals rfl

theorem stepPrealloc_staged (cfg : Config) (sys : Sys) (st : St) :
    ((stepPrealloc cfg sys st).2).staged = st.staged := by
  unfold stepPrealloc emit
  dsimp only
  repeat' split
  all_goals rfl

theorem stepPunchHole_staged (cfg : Config) (st : St) :
    ((stepPunchHole cfg st).2).staged = st.staged := by
  unfold stepPunchHole emit
  repeat' split
  all_goals rfl

theorem stepXattrsAux_data {sys : Sys} (xs : List (String × Bytes)) (i : Nat) (st : St) :
    ((stepXattrsAux sys xs i st).2).staged.data = st.staged.data := by
  induction xs generalizing i st with
  | nil => rfl
  | cons x rest ih =>
      unfold stepXattrsAux emit
      split
      · exact ih (i + 1) _
      · rfl

theorem stepXattrs_data (cfg : Config) (sys : Sys) (st : St) :
    ((stepXattrs cfg sys st).2).staged.data = st.staged.data :=
  stepXattrsAux_data cfg.xattrs 0 st

theorem stepTimes_data (cfg : Config) (sys : Sys) (st : St) :
    ((stepTimes cfg sys st).2).staged.data = st.staged.data := by
  unfold stepTimes emit
  repeat' split
  all_goals rfl

theorem stepFsyncFile_staged (cfg : Config) (sys : Sys) (st : St) :
    ((stepFsyncFile cfg sys st).2).staged = st.staged := by
  unfold stepFsyncFile emit
  repeat' split
  all_goals rfl

theorem stepOpenTmp_ok_inv {sys : Sys} {st st2 : St}
    (h : stepOpenTmp sys st = (.ok (), st2)) :
    st2.staged = freshFile sys ∧ st2.fs = st.fs := by
  unfold stepOpenTmp emit at h
  by_cases hk : sys.openTmpOk = true
  · simp [hk] at h
    exact ⟨by rw [← h], by rw [← h]⟩
  · simp only [Bool.not_eq_true] at hk
    simp [hk] at h

theorem stepCopy_ok_inv {cfg : Config} {sys : Sys} {st st2 : St}
    (h : stepCopy cfg sys st = (.ok (), st2)) :
    st2.staged.data = st.staged.data ++ contentBytes cfg := by
  match hc : cfg.contents with
  | some r =>
      unfold stepCopy emit at h
      rw [hc] at h
      by_cases hk : sys.copyOk = true
      · simp [hk] at h
        rw [← h]
        simp [contentBytes, hc]
      · simp only [Bool.not_eq_true] at hk
        simp [hk] at h
  | none =>
      unfold stepCopy at h
      rw [hc] at h
      simp at h
      rw [← h]
      simp [contentBytes, hc]

theorem stepLink_ok_inv {sys : Sys} {fname : String} {st st2 : St}
    (h : stepLink sys fname st = (.ok (), st2)) :
    st.fs fname = none ∧ st2.fs = publish st.fs fname st.staged := by
  match hfn : st.fs fname with
  | some f0 =>
      exfalso
      have := (stepLink_exists sys st hfn).2
      rw [h] at this
      simp at this
  | none =>
      refine ⟨rfl, ?_⟩
      have hfree : (st.fs fname).isSome = false := by simp [hfn]
      unfold stepLink linkatEmpty linkatProc emit at h
      by_cases hs : sys.linkatEmptySupported = true
      · simp [hs, hfn] at h
        rw [← h]
      · simp only [Bool.not_eq_true] at hs
        by_cases hp : sys.linkatProcOk = true
        · simp [hs, hp, hfn] at h
          rw [← h]
        · simp only [Bool.not_eq_true] at hp
          simp [hs, hp, hfn] at h

/-- When a file already occupies the target name, no run of the pipeline —
whatever the options and however the syscalls behave — changes the
namespace: the staged file never overwrites the existing one and is simply
discarded. -/
theorem createC_fs_exists (cfg : Config) (sys : Sys) {fs : FS} {fname : String}
    {f0 : File} (h : fs fname = some f0) :
    ((createC sys fs fname cfg).2).fs = fs := by
  have hpres : ∀ s ∈ stepsOf cfg sys fname, ∀ st : St, st.fs = fs → ((s st).2).fs = fs := by
    intro s hs st hP
    simp only [stepsOf, List.mem_cons, List.not_mem_nil, or_false] at hs
    rcases hs with rfl | rfl | rfl | rfl | rfl | rfl | rfl | rfl | rfl | rfl | rfl | rfl
    · rw [stepOpenDir_fs]; exact hP
    · rw [stepOpenTmp_fs]; exact hP
    · rw [stepOwnership_fs]; exact hP
    · rw [stepPermissions_fs]; exact hP
    · rw [stepPrealloc_fs]; exact hP
    · rw [stepCopy_fs]; exact hP
    · rw [stepPunchHole_fs]; exact hP
    · rw [stepXattrs_fs]; exact hP
    · rw [stepTimes_fs]; exact hP
    · rw [stepFsyncFile_fs]; exact hP
    · have hfn : st.fs fname = some f0 := by rw [hP]; exact h
      rw [(stepLink_exists sys st hfn).1]; exact hP
    · rw [stepFsyncDir_fs]; exact hP
  exact runSteps_pres (fun st => st.fs = fs) _ hpres _ rfl

theorem create_fs_exists {sys : Sys} {fs : FS} {fname : String} {f0 : File}
    (options : List Opt) (h : fs fname = some f0) :
    (create sys fs fname options).2.2 = fs := by
  unfold create
  match happ : applyOpts options defaultConfig with
  | .error e => rfl
  | .ok cfg => simpa using createC_fs_exists cfg sys h

/-- When a file already occupies the target name and every earlier syscall
succeeds, the run reaches publication, both link attempts fail, and the
surfaced error is the `EEXIST` wrapper. -/
theorem create_err_exists {options : List Opt} {cfg : Config} {sys : Sys}
    {fs : FS} {fname : String} {f0 : File}
    (happ : applyOpts options defaultConfig = .ok cfg) (hpre : goodPre cfg sys)
    (hproc : sys.linkatProcOk = true) (h : fs fname = some f0) :
    (create sys fs fname options).1 =
      .error (.werror "linking file" (.errno .EEXIST)) := by
  unfold create
  rw [happ]
  have hlink := stepLink_exists sys
    { staged := expectedFile cfg sys
      prealloc := preAfterFalloc cfg sys
      written := writtenOf cfg
      tr := preTrace cfg sys
      fs := fs } h
  rcases hst : stepLink sys fname
      { staged := expectedFile cfg sys
        prealloc := preAfterFalloc cfg sys
        written := writtenOf cfg
        tr := preTrace cfg sys
        fs := fs } with ⟨r, st2⟩
  rw [hst] at hlink
  simp only [hproc, if_true] at hlink
  simp only [createC_to_link hpre]
  rw [runSteps_cons_err (by rw [hst, hlink.2])]

/-- Inversion of a successful run: the target was free, and the namespace
gained exactly one entry — the staged file, whose contents are exactly the
bytes of the supplied content source. -/
theorem createC_ok_inv {cfg : Config} {sys : Sys} {fs : FS} {fname : String}
    (hok : (createC sys fs fname cfg).1 = .ok ()) :
    fs fname = none ∧
    ∃ f : File, f.data = contentBytes cfg ∧
      ((createC sys fs fname cfg).2).fs = publish fs fname f := by
  unfold createC stepsOf at hok ⊢
  obtain ⟨st1, h1, e1⟩ := runSteps_cons_ok_inv hok
  rw [e1] at hok ⊢
  obtain ⟨st2, h2, e2⟩ := runSteps_cons_ok_inv hok
  rw [e2] at hok ⊢
  obtain ⟨st3, h3, e3⟩ := runSteps_cons_ok_inv hok
  rw [e3] at hok ⊢
  obtain ⟨st4, h4, e4⟩ := runSteps_cons_ok_inv hok
  rw [e4] at hok ⊢
  obtain ⟨st5, h5, e5⟩ := runSteps_cons_ok_inv hok
  rw [e5] at hok ⊢
  obtain ⟨st6, h6, e6⟩ := runSteps_cons_ok_inv hok
  rw [e6] at hok ⊢
  obtain ⟨st7, h7, e7⟩ := runSteps_cons_ok_inv hok
  rw [e7] at hok ⊢
  obtain ⟨st8, h8, e8⟩ := runSteps_cons_ok_inv hok
  rw [e8] at hok ⊢
  obtain ⟨st9, h9, e9⟩ := runSteps_cons_ok_inv hok
  rw [e9] at hok ⊢
  obtain ⟨st10, h10, e10⟩ := runSteps_cons_ok_inv hok
  rw [e10] at hok ⊢
  obtain ⟨st11, h11, e11⟩ := runSteps_cons_ok_inv hok
  rw [e11] at hok ⊢
  obtain ⟨st12, h12, e12⟩ := runSteps_cons_ok_inv hok
  rw [e12] at hok ⊢
  have f1 : st1.fs = fs := by
    have := stepOpenDir_fs cfg sys
      { staged := dummyFile, fs := fs }
    rw [h1] at this; simpa using this
  have s1 : st1.staged = dummyFile := by
    have := stepOpenDir_staged cfg sys
      { staged := dummyFile, fs := fs }
    rw [h1] at this; simpa using this
  obtain ⟨s2, f2⟩ := stepOpenTmp_ok_inv h2
  have f3 : st3.fs = st2.fs := by
    have := stepOwnership_fs cfg sys st2; rw [h3] at this; simpa using this
  have d3 : st3.staged.data = st2.staged.data := by
    have := stepOwnership_data cfg sys st2; rw [h3] at this; simpa using this
  have f4 : st4.fs = st3.fs := by
    have := stepPermissions_fs cfg sys st3; rw [h4] at this; simpa using this
  have d4 : st4.staged.data = st3.staged.data := by
    have := stepPermissions_data cfg sys st3; rw [h4] at this; simpa using this
  have f5 : st5.fs = st4.fs := by
    have := stepPrealloc_fs cfg sys st4; rw [h5] at this; simpa using this
  have d5 : st5.staged = st4.staged := by
    have := stepPrealloc_staged cfg sys st4; rw [h5] at this; simpa using this
  have f6 : st6.fs = st5.fs := by
    have := stepCopy_fs cfg sys st5; rw [h6] at this; simpa using this
  have d6 : st6.staged.data = st5.staged.data ++ contentBytes cfg := stepCopy_ok_inv h6
  have f7 : st7.fs = st6.fs := by
    have := stepPunchHole_fs cfg st6; rw [h7] at this; simpa using this
  have d7 : st7.staged = st6.staged := by
    have := stepPunchHole_staged cfg st6; rw [h7] at this; simpa using this
  have f8 : st8.fs = st7.fs := by
    have := stepXattrs_fs cfg sys st7; rw [h8] at this; simpa using this
  have d8 : st8.staged.data = st7.staged.data := by
    have := stepXattrs_data cfg sys st7; rw [h8] at this; simpa using this
  have f9 : st9.fs = st8.fs := by
    have := stepTimes_fs cfg sys st8; rw [h9] at this; simpa using this
  have d9 : st9.staged.data = st8.staged.data := by
    have := stepTimes_data cfg sys st8; rw [h9] at this; simpa using this
  have f10 : st10.fs = st9.fs := by
    have := stepFsyncFile_fs cfg sys st9; rw [h10] at this; simpa using this
  have d10 : st10.staged = st9.staged := by
    have := stepFsyncFile_staged cfg sys st9; rw [h10] at this; simpa using this
  obtain ⟨hfree, f11⟩ := stepLink_ok_inv h11
  have f12 : st12.fs = st11.fs := by
    have := stepFsyncDir_fs cfg sys st11; rw [h12] at this; simpa using this
  have hfs10 : st10.fs = fs := by
    rw [f10, f9, f8, f7, f6, f5, f4, f3, f2, f1]
  have hdata10 : st10.staged.data = contentBytes cfg := by
    rw [d10, d9, d8, d7, d6, d5, d4, d3, s2]
    simp [freshFile]
  refine ⟨by rw [← hfs10]; exact hfree, ⟨st10.staged, hdata10, ?_⟩⟩
  simp only [runSteps]
  rw [f12, f11, hfs10]

/-- Step `s` only ever appends events satisfying `A` to the trace. -/
def emitsIn (s : Step) (A : Ev → Prop) : Prop :=
  ∀ st e, e ∈ ((s st).2).tr → e ∈ st.tr ∨ A e

theorem runSteps_emitsIn (A : Ev → Prop) (steps : List Step)
    (h : ∀ s ∈ steps, emitsIn s A) :
    ∀ st e, e ∈ ((runSteps steps st).2).tr → e ∈ st.tr ∨ A e := by
  induction steps with
  | nil => intro st e he; left; simpa [runSteps] using he
  | cons s ss ih =>
      intro st e he
      rcases hs : s st with ⟨r, st2⟩
      match r with
      | .ok u =>
          rw [show runSteps (s :: ss) st = runSteps ss st2 by simp [runSteps, hs]] at he
          rcases ih (fun t ht => h t (by simp [ht])) st2 e he with h2 | h2
          · have := h s (by simp) st e (by rw [hs]; exact h2)
            exact this
          · exact Or.inr h2
      | .error e2 =>
          rw [show runSteps (s :: ss) st = (.error e2, st2) by simp [runSteps, hs]] at he
          exact h s (by simp) st e (by rw [hs]; exact he)

/-- The events any step of the pipeline for `cfg` can emit: flush events
only when durability was requested, `fchown` only when ownership was
requested, `fallocate` only when the effective preallocation is positive. -/
def pipeEv (cfg : Config) (fname : String) (e : Ev) : Prop :=
  (cfg.flushData = true ∧ (e = .openDir ∨ e = .fsyncFile ∨ e = .fsyncDir))
  ∨ e = .openTmp
  ∨ (ownReq cfg ∧ e = .fchown cfg.uid cfg.gid)
  ∨ (permReq cfg ∧ e = .fchmod cfg.perm)
  ∨ (effPrealloc cfg > 0 ∧ ∃ l, e = .fallocate 0 l)
  ∨ e = .copy
  ∨ (∃ o l, e = .punchHole o l)
  ∨ (∃ n v, e = .fsetxattr n v)
  ∨ (∃ a m, e = .futimens a m)
  ∨ e = .linkatEmptyPath fname ∨ e = .linkatProcPath fname

theorem stepXattrsAux_emitsIn (sys : Sys) (xs : List (String × Bytes)) (i : Nat) :
    emitsIn (stepXattrsAux sys xs i) (fun e => ∃ n v, e = .fsetxattr n v) := by
  induction xs generalizing i with
  | nil => intro st e he; left; exact he
  | cons x rest ih =>
      intro st e he
      unfold stepXattrsAux emit at he
      split at he
      · rcases ih (i + 1) _ e he with h2 | h2
        · simp only [List.mem_append, List.mem_singleton] at h2
          rcases h2 with h2 | h2
          · exact Or.inl h2
          · exact Or.inr ⟨x.1, x.2, h2⟩
        · exact Or.inr h2
      · simp only [List.mem_append, List.mem_singleton] at he
        rcases he with he | he
        · exact Or.inl he
        · exact Or.inr ⟨x.1, x.2, he⟩

theorem createC_emitsIn {cfg : Config} {sys : Sys} {fs : FS} {fname : String} :
    ∀ e ∈ ((createC sys fs fname cfg).2).tr, pipeEv cfg fname e := by
  intro e he
  have h : ∀ s ∈ stepsOf cfg sys fname, emitsIn s (pipeEv cfg fname) := by
    intro s hs
    simp only [stepsOf, List.mem_cons, List.not_mem_nil, or_false] at hs
    rcases hs with rfl | rfl | rfl | rfl | rfl | rfl | rfl | rfl | rfl | rfl | rfl | rfl
    · intro st ev hev
      unfold stepOpenDir emit at hev
      repeat' split at hev
      all_goals simp only [List.mem_append, List.mem_singleton] at hev
      all_goals try rcases hev with hev | hev
      all_goals simp_all [pipeEv]
    · intro st ev hev
      unfold stepOpenTmp emit at hev
      repeat' split at hev
      all_goals simp only [List.mem_append, List.mem_singleton] at hev
      all_goals try rcases hev with hev | hev
      all_goals simp_all [pipeEv]
    · intro st ev hev
      unfold stepOwnership emit at hev
      repeat' split at hev
      all_goals simp only [List.mem_append, List.mem_singleton] at hev
      all_goals try rcases hev with hev | hev
      all_goals simp_all [pipeEv]
    · intro st ev hev
      unfold stepPermissions emit at hev
      repeat' split at hev
      all_goals simp only [List.mem_append, List.mem_singleton] at hev
      all_goals try rcases hev with hev | hev
      all_goals simp_all [pipeEv]
    · intro st ev hev
      unfold stepPrealloc emit at hev
      dsimp only at hev
      repeat' split at hev
      all_goals simp only [List.mem_append, List.mem_singleton] at hev
      all_goals try rcases hev with hev | hev
      all_goals simp_all [pipeEv]
    · intro st ev hev
      unfold stepCopy emit at hev
      repeat' split at hev
      all_goals simp only [List.mem_append, List.mem_singleton] at hev
      all_goals try rcases hev with hev | hev
      all_goals simp_all [pipeEv]
    · intro st ev hev
      unfold stepPunchHole emit at hev
      repeat' split at hev
      all_goals simp only [List.mem_append, List.mem_singleton] at hev
      all_goals try rcases hev with hev | hev
      all_goals simp_all [pipeEv]
    · intro st ev hev
      rcases stepXattrsAux_emitsIn sys cfg.xattrs 0 st ev hev with h2 | h2
      · exact Or.inl h2
      · right; simp [pipeEv, h2]
    · intro st ev hev
      unfold stepTimes emit at hev
      repeat' split at hev
      all_goals simp only [List.mem_append, List.mem_singleton] at hev
      all_goals try rcases hev with hev | hev
      all_goals simp_all [pipeEv]
    · intro st ev hev
      unfold stepFsyncFile emit at hev
      repeat' split at hev
      all_goals simp only [List.mem_append, List.mem_singleton] at hev
      all_goals try rcases hev with hev | hev
      all_goals simp_all [pipeEv]
    · intro st ev hev
      unfold stepLink linkatEmpty linkatProc emit at hev
      by_cases h1 : sys.linkatEmptySupported = false
      all_goals by_cases h2 : (st.fs fname).isSome = true
      all_goals by_cases h3 : sys.linkatProcOk = false
      all_goals simp [h1, h2, h3] at hev
      all_goals try rcases hev with hev | hev
      all_goals try rcases hev with hev | hev
      all_goals simp_all [pipeEv]
    · intro st ev hev
      unfold stepFsyncDir emit at hev
      repeat' split at hev
      all_goals simp only [List.mem_append, List.mem_singleton] at hev
      all_goals try rcases hev with hev | hev
      all_goals simp_all [pipeEv]
  have := runSteps_emitsIn (pipeEv cfg fname) (stepsOf cfg sys fname) h
    { staged := dummyFile, fs := fs } e (by simpa [createC] using he)
  simpa using this

theorem mem_ite_singleton {c : Prop} [Decidable c] {e x : Ev}
    (h : e ∈ (if c then [x] else [])) : e = x := by
  split at h
  · simpa using h
  · simp at h

/-- The events of the pre-flush prefix are attribute-application syscalls:
never a flush and never a publication attempt. -/
theorem preB_events {cfg : Config} {sys : Sys} {e : Ev} (he : e ∈ preB cfg sys) :
    e = .openDir ∨ e = .openTmp ∨ (∃ u g, e = .fchown u g) ∨ (∃ p, e = .fchmod p)
    ∨ (∃ o l, e = .fallocate o l) ∨ e = .copy ∨ (∃ o l, e = .punchHole o l)
    ∨ (∃ n v, e = .fsetxattr n v) ∨ (∃ a m, e = .futimens a m) := by
  simp only [preB, trace4, List.append_assoc, List.mem_append] at he
  rcases he with he | he | he | he | he | he | he | he
  · exact Or.inl (mem_ite_singleton he)
  · simp only [List.mem_singleton] at he
    exact Or.inr (Or.inl he)
  · exact Or.inr (Or.inr (Or.inl ⟨cfg.uid, cfg.gid, mem_ite_singleton he⟩))
  · exact Or.inr (Or.inr (Or.inr (Or.inl ⟨cfg.perm, mem_ite_singleton he⟩)))
  · exact Or.inr (Or.inr (Or.inr (Or.inr (Or.inl
      ⟨0, effPrealloc cfg, mem_ite_singleton he⟩))))
  · exact Or.inr (Or.inr (Or.inr (Or.inr (Or.inr (Or.inl (mem_ite_singleton he))))))
  · exact Or.inr (Or.inr (Or.inr (Or.inr (Or.inr (Or.inr (Or.inl
      ⟨writtenOf cfg, preAfterFalloc cfg sys - writtenOf cfg, mem_ite_singleton he⟩))))))
  · rcases he with he | he
    · simp only [List.mem_map] at he
      obtain ⟨x, _, hx⟩ := he
      exact Or.inr (Or.inr (Or.inr (Or.inr (Or.inr (Or.inr (Or.inr (Or.inl
        ⟨x.1, x.2, hx.symm⟩)))))))
    · exact Or.inr (Or.inr (Or.inr (Or.inr (Or.inr (Or.inr (Or.inr (Or.inr
        ⟨cfg.atime, cfg.mtime, mem_ite_singleton he⟩)))))))

theorem applyOpts_append (a b : List Opt) (c : Config) :
    applyOpts (a ++ b) c =
      match applyOpts a c with
      | .error e => .error e
      | .ok c2 => applyOpts b c2 := by
  induction a generalizing c with
  | nil => simp [applyOpts]
  | cons o rest ih =>
      simp only [List.cons_append, applyOpts]
      match applyOpt o c with
      | .error e => rfl
      | .ok c2 => exact ih c2

/-- A syscall layer in which every call succeeds. -/
def okSys : Sys := {}

/-- The empty namespace. -/
def emptyFS : FS := fun _ => none

/-- A namespace in which the name `"t"` is already taken. -/
def exFS : FS := fun p => if p = "t" then some dummyFile else none

/-! ## Claims -/

/-- C1: for every configuration, when a regular file already exists at the
target path at publication time, `Create`'s result namespace is the
original one — the pre-existing file's bytes and metadata are unchanged and
the staged file never overwrites it, whatever the options and syscall
outcomes — and, whenever the run reaches publication (options accumulate
and every earlier syscall succeeds, with the fallback pseudo-path
resolvable), the surfaced error is the `AlreadyExists` wrapper
`werror{"linking file", EEXIST}`. -/
theorem create_only_semantics (sys : Sys) (fs : FS) (fname : String) (f0 : File)
    (options : List Opt) (h : fs fname = some f0) :
    (create sys fs fname options).2.2 = fs
    ∧ (∀ cfg, applyOpts options defaultConfig = .ok cfg → goodPre cfg sys →
        sys.linkatProcOk = true →
        (create sys fs fname options).1 =
          .error (.werror "linking file" (.errno .EEXIST))) :=
  ⟨create_fs_exists options h,
   fun _ happ hpre hproc => create_err_exists happ hpre hproc h⟩

/-- Witness for C1 at a concrete occupied target. -/
theorem create_only_semantics_witness :
    (create okSys exFS "t" []).2.2 = exFS
    ∧ (create okSys exFS "t" []).1 =
        .error (.werror "linking file" (.errno .EEXIST)) := by
  have h := create_only_semantics okSys exFS "t" dummyFile [] (by simp [exFS])
  refine ⟨h.1, h.2 defaultConfig rfl ?_ rfl⟩
  exact ⟨fun _ => rfl, rfl, fun _ => rfl, fun _ => rfl, fun _ => rfl, fun _ => rfl,
    fun i _ => rfl, fun _ => rfl, fun _ => rfl⟩

/-- C2: for every byte sequence supplied through the `Contents` option
(empty included), a successful `Create` finds the target free, publishes at
the target exactly one file whose bytes are exactly the source's bytes, and
leaves every other name unchanged. -/
theorem content_roundtrip (options : List Opt) (cfg : Config) (sys : Sys)
    (fs : FS) (fname : String) (r : Reader)
    (happ : applyOpts options defaultConfig = .ok cfg)
    (hc : cfg.contents = some r)
    (hok : (create sys fs fname options).1 = .ok ()) :
    fs fname = none
    ∧ ∃ f : File, f.data = readAll r
        ∧ (create sys fs fname options).2.2 fname = some f
        ∧ ∀ p, p ≠ fname → (create sys fs fname options).2.2 p = fs p := by
  unfold create at hok ⊢
  rw [happ] at hok ⊢
  dsimp only at hok ⊢
  obtain ⟨hfree, f, hdata, hfs⟩ := createC_ok_inv hok
  refine ⟨hfree, f, ?_, ?_, ?_⟩
  · rw [hdata]; simp [contentBytes, hc]
  · rw [hfs]; simp [publish]
  · intro p hp
    rw [hfs]
    simp [publish, hp]

/-- Witness for C2 at a concrete two-byte content source. -/
theorem content_roundtrip_witness :
    emptyFS "t" = none
    ∧ ∃ f : File, f.data = readAll (.buffer [7, 8])
        ∧ (create okSys emptyFS "t" [.contents (.buffer [7, 8])]).2.2 "t" = some f
        ∧ ∀ p, p ≠ "t" →
            (create okSys emptyFS "t" [.contents (.buffer [7, 8])]).2.2 p = emptyFS p :=
  content_roundtrip [.contents (.buffer [7, 8])]
    { defaultConfig with contents := some (.buffer [7, 8]) }
    okSys emptyFS "t" (.buffer [7, 8]) rfl rfl rfl

/-- C3 counterexample: with contents whose size is guessable and no
`Preallocate` option anywhere in the list, a successful run still attempts
`fallocate` — the preallocation step is not skipped when its option was not
requested (the implicit content-length guess triggers it). -/
theorem attribute_order_counterexample :
    Ev.fallocate 0 3 ∈ (create okSys emptyFS "t" [.contents (.buffer [1, 2, 3])]).2.1
    ∧ (∀ s, Opt.preallocate s ∉ [Opt.contents (.buffer [1, 2, 3])])
    ∧ (create okSys emptyFS "t" [.contents (.buffer [1, 2, 3])]).1 = .ok () := by
  refine ⟨?_, ?_, rfl⟩
  · rw [show (create okSys emptyFS "t" [.contents (.buffer [1, 2, 3])]).2.1 =
      [.openTmp, .fallocate 0 3, .copy, .linkatEmptyPath "t"] from rfl]
    simp
  · intro s
    simp

/-- C3 amended: in a successful run the attempted syscalls are exactly
`expectedTrace` — ownership, then permissions, then preallocation, then
content copy, then hole punch, then extended attributes in list order, then
timestamps, then the flush/publication tail; each attribute step is skipped
when its option was not requested, except preallocation, which also runs on
an implicit size guessed from the content source; in particular the
ownership and permission events precede the copy event. -/
theorem attribute_order (options : List Opt) (cfg : Config) (sys : Sys)
    (fs : FS) (fname : String)
    (happ : applyOpts options defaultConfig = .ok cfg)
    (hrun : goodRun cfg sys fs fname) :
    (create sys fs fname options).2.1 = expectedTrace cfg sys fname := by
  unfold create
  rw [happ]
  dsimp only
  rw [createC_master hrun]

/-- Witness for C3's amended order theorem: ownership, permissions and
contents requested together; the trace is the expected one, with `fchown`
then `fchmod` strictly before `copy`. -/
theorem attribute_order_witness :
    (create okSys emptyFS "t"
        [.ownership 3 4, .permissions 0o640, .contents (.buffer [9])]).2.1 =
      expectedTrace
        { defaultConfig with uid := 3, gid := 4, perm := 0o640,
                             contents := some (.buffer [9]) } okSys "t"
    ∧ expectedTrace
        { defaultConfig with uid := 3, gid := 4, perm := 0o640,
                             contents := some (.buffer [9]) } okSys "t" =
      [.openTmp, .fchown 3 4, .fchmod 0o640, .fallocate 0 1, .copy,
       .linkatEmptyPath "t"] := by
  constructor
  · exact attribute_order [.ownership 3 4, .permissions 0o640, .contents (.buffer [9])]
      { defaultConfig with uid := 3, gid := 4, perm := 0o640,
                           contents := some (.buffer [9]) }
      okSys emptyFS "t" rfl
      ⟨⟨fun _ => rfl, rfl, fun _ => rfl, fun _ => rfl, fun _ => rfl, fun _ => rfl,
        fun i _ => rfl, fun _ => rfl, fun _ => rfl⟩, Or.inl rfl, fun _ => rfl, rfl⟩
  · rfl

/-- C4: when durability is requested and the run succeeds, the trace is the
pre-publication events, then the file flush, then the publication attempts,
then the directory flush — the file flush strictly precedes every
publication event and the directory flush strictly follows them, and no
flush or publication event hides in the prefix; when durability is not
requested, no run — successful or not — attempts the directory open, the
file flush, or the directory flush. -/
theorem durability_ordering (options : List Opt) (cfg : Config) (sys : Sys)
    (fs : FS) (fname : String)
    (happ : applyOpts options defaultConfig = .ok cfg) :
    (cfg.flushData = true → goodRun cfg sys fs fname →
      (create sys fs fname options).2.1 =
        (preB cfg sys ++ [.fsyncFile]) ++ linkEvs sys fname ++ [.fsyncDir]
      ∧ (∀ e ∈ preB cfg sys, e ≠ .fsyncFile ∧ e ≠ .fsyncDir
          ∧ ∀ t, e ≠ .linkatEmptyPath t ∧ e ≠ .linkatProcPath t)
      ∧ (∀ e ∈ linkEvs sys fname,
          e = .linkatEmptyPath fname ∨ e = .linkatProcPath fname))
    ∧ (cfg.flushData = false →
        ∀ e ∈ (create sys fs fname options).2.1,
          e ≠ .openDir ∧ e ≠ .fsyncFile ∧ e ≠ .fsyncDir) := by
  constructor
  · intro hflush hrun
    refine ⟨?_, ?_, ?_⟩
    · have ht : (create sys fs fname options).2.1 = expectedTrace cfg sys fname := by
        unfold create
        rw [happ]
        dsimp only
        rw [createC_master hrun]
      rw [ht]
      simp [expectedTrace, preTrace, hflush, List.append_assoc]
    · intro e he
      rcases preB_events he with h | h | h | h | h | h | h | h | h
      · subst h; exact ⟨by simp, by simp, fun t => ⟨by simp, by simp⟩⟩
      · subst h; exact ⟨by simp, by simp, fun t => ⟨by simp, by simp⟩⟩
      · obtain ⟨u, g, rfl⟩ := h; exact ⟨by simp, by simp, fun t => ⟨by simp, by simp⟩⟩
      · obtain ⟨p, rfl⟩ := h; exact ⟨by simp, by simp, fun t => ⟨by simp, by simp⟩⟩
      · obtain ⟨o, l, rfl⟩ := h; exact ⟨by simp, by simp, fun t => ⟨by simp, by simp⟩⟩
      · subst h; exact ⟨by simp, by simp, fun t => ⟨by simp, by simp⟩⟩
      · obtain ⟨o, l, rfl⟩ := h; exact ⟨by simp, by simp, fun t => ⟨by simp, by simp⟩⟩
      · obtain ⟨n, v, rfl⟩ := h; exact ⟨by simp, by simp, fun t => ⟨by simp, by simp⟩⟩
      · obtain ⟨a, m, rfl⟩ := h; exact ⟨by simp, by simp, fun t => ⟨by simp, by simp⟩⟩
    · intro e he
      unfold linkEvs at he
      split at he
      · simp only [List.mem_singleton] at he
        exact Or.inl he
      · simp only [List.mem_cons, List.mem_singleton, List.not_mem_nil, or_false] at he
        rcases he with he | he
        · exact Or.inl he
        · exact Or.inr he
  · intro hflush e he
    unfold create at he
    rw [happ] at he
    dsimp only at he
    have hp := createC_emitsIn e he
    rcases hp with h | h | h | h | h | h | h | h | h | h | h
    · rw [hflush] at h
      simp at h
    · subst h; exact ⟨by simp, by simp, by simp⟩
    · obtain ⟨_, rfl⟩ := h; exact ⟨by simp, by simp, by simp⟩
    · obtain ⟨_, rfl⟩ := h; exact ⟨by simp, by simp, by simp⟩
    · obtain ⟨_, _, rfl⟩ := h.2; exact ⟨by simp, by simp, by simp⟩
    · subst h; exact ⟨by simp, by simp, by simp⟩
    · obtain ⟨o, l, rfl⟩ := h; exact ⟨by simp, by simp, by simp⟩
    · obtain ⟨n, v, rfl⟩ := h; exact ⟨by simp, by simp, by simp⟩
    · obtain ⟨a, m, rfl⟩ := h; exact ⟨by simp, by simp, by simp⟩
    · subst h; exact ⟨by simp, by simp, by simp⟩
    · subst h; exact ⟨by simp, by simp, by simp⟩

theorem effPrealloc_of_ne (cfg : Config) (hne : cfg.prealloc ≠ 0) :
    effPrealloc cfg = cfg.prealloc := by
  unfold effPrealloc
  match hcon : cfg.contents with
  | some r =>
      have : ¬(cfg.prealloc = defaultConfig.prealloc ∧ guessContentSize r > 0) := by
        intro hand
        exact hne (by simpa [defaultConfig] using hand.1)
      simp [this]
  | none => rfl

theorem stepPrealloc_explicit_fail {cfg : Config} {sys : Sys}
    (hpos : cfg.prealloc > 0) (hfail : sys.fallocateOk = false) (st : St) :
    stepPrealloc cfg sys st =
      (.error (.werror "preallocating file" (.errno .ENOSPC)),
       { st with tr := st.tr ++ [.fallocate 0 (effPrealloc cfg)], prealloc := 0 }) := by
  have heff : effPrealloc cfg = cfg.prealloc := effPrealloc_of_ne cfg (by omega)
  unfold stepPrealloc emit
  rw [heff]
  simp [hpos, hfail]

/-- A run with a failing preallocation syscall and all the prior steps
succeeding aborts at the preallocation step whenever the preallocation was
explicit. -/
theorem create_explicit_prealloc_fail {options : List Opt} {cfg : Config}
    {sys : Sys} {fs : FS} {fname : String}
    (happ : applyOpts options defaultConfig = .ok cfg)
    (hpos : cfg.prealloc > 0) (hfail : sys.fallocateOk = false)
    (h1 : cfg.flushData = true → sys.openDirOk = true) (h2 : sys.openTmpOk = true)
    (h3 : ownReq cfg → sys.fchownOk = true) (h4 : permReq cfg → sys.fchmodOk = true) :
    (create sys fs fname options).1 =
      .error (.werror "preallocating file" (.errno .ENOSPC)) := by
  unfold create
  rw [happ]
  dsimp only
  unfold createC stepsOf
  rw [runSteps_cons_ok (stepOpenDir_eq h1 _),
      runSteps_cons_ok (stepOpenTmp_eq h2 _),
      runSteps_cons_ok (stepOwnership_eq h3 _),
      runSteps_cons_ok (stepPermissions_eq h4 _),
      runSteps_cons_err (stepPrealloc_explicit_fail hpos hfail _)]

/-- C5: when the preallocation syscall fails — an explicit positive
`Preallocate` size makes `Create` abort with the `PreallocationFailed`
wrapper (given the earlier steps succeed); a size only guessed implicitly
from the content source is attempted but its failure is swallowed, and the
run succeeds. -/
theorem prealloc_failure_semantics (options : List Opt) (cfg : Config)
    (sys : Sys) (fs : FS) (fname : String) (r : Reader)
    (happ : applyOpts options defaultConfig = .ok cfg)
    (hfail : sys.fallocateOk = false) :
    (cfg.prealloc > 0 →
      (cfg.flushData = true → sys.openDirOk = true) → sys.openTmpOk = true →
      (ownReq cfg → sys.fchownOk = true) → (permReq cfg → sys.fchmodOk = true) →
      (create sys fs fname options).1 =
        .error (.werror "preallocating file" (.errno .ENOSPC)))
    ∧ (cfg.prealloc = 0 → cfg.contents = some r → guessContentSize r > 0 →
        goodRun cfg sys fs fname →
        (create sys fs fname options).1 = .ok ()
        ∧ Ev.fallocate 0 (guessContentSize r) ∈ (create sys fs fname options).2.1) := by
  constructor
  · intro hpos h1 h2 h3 h4
    exact create_explicit_prealloc_fail happ hpos hfail h1 h2 h3 h4
  · intro hz hc hg hrun
    have heff : effPrealloc cfg = guessContentSize r := by
      unfold effPrealloc
      rw [hc]
      simp [hz, defaultConfig, hg]
    constructor
    · unfold create
      rw [happ]
      dsimp only
      rw [createC_master hrun]
    · unfold create
      rw [happ]
      dsimp only
      rw [createC_master hrun]
      simp only [expectedTrace, preTrace, preB, List.mem_append]
      left; left; left
      rw [heff]
      simp [hg]

/-- A syscall layer in which only preallocation fails. -/
def fallocFailSys : Sys := { fallocateOk := false }

/-- Witness for C5: explicit `Preallocate 5` aborts, while the same failing
syscall under an implicit two-byte content guess is swallowed and the run
succeeds (the attempt is still visible in the trace). -/
theorem prealloc_failure_semantics_witness :
    (create fallocFailSys emptyFS "t" [.preallocate 5]).1 =
      .error (.werror "preallocating file" (.errno .ENOSPC))
    ∧ (create fallocFailSys emptyFS "t" [.contents (.buffer [1, 2])]).1 = .ok ()
    ∧ Ev.fallocate 0 (guessContentSize (.buffer [1, 2]))
        ∈ (create fallocFailSys emptyFS "t" [.contents (.buffer [1, 2])]).2.1 := by
  refine ⟨?_, ?_, ?_⟩
  · exact (prealloc_failure_semantics [.preallocate 5]
      { defaultConfig with prealloc := 5 } fallocFailSys emptyFS "t" (.buffer [])
      rfl rfl).1 (by decide) (fun _ => rfl) rfl (fun _ => rfl) (fun _ => rfl)
  · exact ((prealloc_failure_semantics [.contents (.buffer [1, 2])]
      { defaultConfig with contents := some (.buffer [1, 2]) } fallocFailSys emptyFS
      "t" (.buffer [1, 2]) rfl rfl).2 rfl rfl (by decide)
      ⟨⟨fun _ => rfl, rfl, fun _ => rfl, fun _ => rfl,
        fun hp => absurd hp (by decide), fun _ => rfl, fun _ _ => rfl,
        fun _ => rfl, fun _ => rfl⟩, Or.inl rfl, fun _ => rfl, rfl⟩).1
  · exact ((prealloc_failure_semantics [.contents (.buffer [1, 2])]
      { defaultConfig with contents := some (.buffer [1, 2]) } fallocFailSys emptyFS
      "t" (.buffer [1, 2]) rfl rfl).2 rfl rfl (by decide)
      ⟨⟨fun _ => rfl, rfl, fun _ => rfl, fun _ => rfl,
        fun hp => absurd hp (by decide), fun _ => rfl, fun _ _ => rfl,
        fun _ => rfl, fun _ => rfl⟩, Or.inl rfl, fun _ => rfl, rfl⟩).2

/-- C6 counterexample: the durability flag is a scalar option, yet
supplying `Fsync` twice is accepted — the run succeeds and performs
filesystem calls instead of failing with a duplicate-option error. -/
theorem duplicate_option_counterexample :
    (create okSys emptyFS "t" [.fsync, .fsync]).1 = .ok ()
    ∧ (create okSys emptyFS "t" [.fsync, .fsync]).2.1 =
        [.openDir, .openTmp, .fsyncFile, .linkatEmptyPath "t", .fsyncDir] :=
  ⟨rfl, rfl⟩

/-- C6 amended: every scalar option except the durability flag — contents,
positive preallocation size, permissions, non-sentinel ownership,
non-sentinel modification and access times — fails with its
duplicate-option error when supplied twice, before any filesystem call
(empty trace, untouched namespace); the durability flag and
extended-attribute options may be repeated freely. -/
theorem duplicate_scalar_rejected (sys : Sys) (fs : FS) (fname : String) :
    (∀ r1 r2 : Reader,
      create sys fs fname [.contents r1, .contents r2] =
        (.error (.werror "options" (.werror0 "multiple contents")), [], fs))
    ∧ (∀ s1 s2 : Int, s1 > 0 →
        create sys fs fname [.preallocate s1, .preallocate s2] =
          (.error (.werror "options" (.werror0 "multiple preallocations")), [], fs))
    ∧ (∀ m1 m2 : Nat,
        create sys fs fname [.permissions m1, .permissions m2] =
          (.error (.werror "options" (.werror0 "multiple permissions")), [], fs))
    ∧ (∀ u1 g1 u2 g2 : Int, u1 ≠ -1 ∨ g1 ≠ -1 →
        create sys fs fname [.ownership u1 g1, .ownership u2 g2] =
          (.error (.werror "options" (.werror0 "multiple ownership")), [], fs))
    ∧ (∀ t1 t2 : Timespec, t1 ≠ omitTs →
        create sys fs fname [.modificationTime t1, .modificationTime t2] =
          (.error (.werror "options" (.werror0 "multiple modification times")), [], fs))
    ∧ (∀ t1 t2 : Timespec, t1 ≠ omitTs →
        create sys fs fname [.accessTime t1, .accessTime t2] =
          (.error (.werror "options" (.werror0 "multiple access times")), [], fs)) := by
  refine ⟨?_, ?_, ?_, ?_, ?_, ?_⟩
  · intro r1 r2
    simp [create, applyOpts, applyOpt, defaultConfig]
  · intro s1 s2 hs
    have hne : ¬(s1 = 0) := by omega
    have hnneg : ¬(s1 < 0) := by omega
    simp [create, applyOpts, applyOpt, defaultConfig, hne, hnneg]
  · intro m1 m2
    have h777 : m1 &&& 0o777 ≤ 0o777 := Nat.and_le_right
    have hne : m1 &&& 0o777 ≠ permUnset := by
      intro hcontra
      rw [hcontra] at h777
      simp [permUnset] at h777
    simp [create, applyOpts, applyOpt, defaultConfig, hne]
  · intro u1 g1 u2 g2 hng
    simp only [create, applyOpts, applyOpt, defaultConfig]
    rcases hng with h | h <;> simp [h]
  · intro t1 t2 hne
    simp [create, applyOpts, applyOpt, defaultConfig, hne]
  · intro t1 t2 hne
    simp [create, applyOpts, applyOpt, defaultConfig, hne]

/-- Witness for C6's amended theorem at concrete duplicated options. -/
theorem duplicate_scalar_rejected_witness :
    (create okSys emptyFS "t" [.contents (.buffer []), .contents (.buffer [])] =
        (.error (.werror "options" (.werror0 "multiple contents")), [], emptyFS))
    ∧ (create okSys emptyFS "t" [.preallocate 1, .preallocate 1] =
        (.error (.werror "options" (.werror0 "multiple preallocations")), [], emptyFS))
    ∧ (create okSys emptyFS "t" [.permissions 420, .permissions 420] =
        (.error (.werror "options" (.werror0 "multiple permissions")), [], emptyFS))
    ∧ (create okSys emptyFS "t" [.ownership 3 4, .ownership 3 4] =
        (.error (.werror "options" (.werror0 "multiple ownership")), [], emptyFS))
    ∧ (create okSys emptyFS "t"
          [.modificationTime ⟨5, 5⟩, .modificationTime ⟨5, 5⟩] =
        (.error (.werror "options" (.werror0 "multiple modification times")), [], emptyFS))
    ∧ (create okSys emptyFS "t" [.accessTime ⟨5, 5⟩, .accessTime ⟨5, 5⟩] =
        (.error (.werror "options" (.werror0 "multiple access times")), [], emptyFS)) := by
  have h := duplicate_scalar_rejected okSys emptyFS "t"
  exact ⟨h.1 (.buffer []) (.buffer []),
    h.2.1 1 1 (by decide),
    h.2.2.1 420 420,
    h.2.2.2.1 3 4 3 4 (Or.inl (by decide)),
    h.2.2.2.2.1 ⟨5, 5⟩ ⟨5, 5⟩ (by simp [omitTs, UTIME_OMIT]),
    h.2.2.2.2.2 ⟨5, 5⟩ ⟨5, 5⟩ (by simp [omitTs, UTIME_OMIT])⟩

/-- C7: publication first attempts the fd-addressed `linkat` with
`AT_EMPTY_PATH`; exactly when that fails it makes one fallback attempt
through the `/proc/self/fd` pseudo-path with `AT_SYMLINK_FOLLOW`; if the
fallback fails too, the error wraps the fallback's errno (and, at `Create`
level, that wrapped error is the one surfaced to the caller); if either
attempt succeeds the staged file is published and the pipeline proceeds. -/
theorem publication_dual_path (sys : Sys) (fname : String) (st : St) :
    (linkatEmpty sys st.fs fname = .ok () →
      stepLink sys fname st =
        (.ok (), { st with
                   tr := st.tr ++ [.linkatEmptyPath fname]
                   fs := publish st.fs fname st.staged }))
    ∧ (∀ e : Errno, linkatEmpty sys st.fs fname = .error e →
        linkatProc sys st.fs fname = .ok () →
        stepLink sys fname st =
          (.ok (), { st with
                     tr := st.tr ++ [.linkatEmptyPath fname, .linkatProcPath fname]
                     fs := publish st.fs fname st.staged }))
    ∧ (∀ e e2 : Errno, linkatEmpty sys st.fs fname = .error e →
        linkatProc sys st.fs fname = .error e2 →
        stepLink sys fname st =
          (.error (.werror "linking file" (.errno e2)),
           { st with
             tr := st.tr ++ [.linkatEmptyPath fname, .linkatProcPath fname]}))
    ∧ (∀ (options : List Opt) (cfg : Config) (fs2 : FS),
        applyOpts options defaultConfig = .ok cfg → goodPre cfg sys →
        sys.linkatEmptySupported = false → sys.linkatProcOk = false →
        (create sys fs2 fname options).1 =
          .error (.werror "linking file" (.errno .ENOENT))) := by
  refine ⟨?_, ?_, ?_, ?_⟩
  · intro h
    simp [stepLink, emit, h]
  · intro e h h2
    simp [stepLink, emit, h, h2]
  · intro e e2 h h2
    simp [stepLink, emit, h, h2]
  · intro options cfg fs2 happ hpre hsup hproc
    unfold create
    rw [happ]
    dsimp only
    rw [createC_to_link hpre]
    have hstep : stepLink sys fname
        { staged := expectedFile cfg sys
          prealloc := preAfterFalloc cfg sys
          written := writtenOf cfg
          tr := preTrace cfg sys
          fs := fs2 } =
        (.error (.werror "linking file" (.errno .ENOENT)),
         { staged := expectedFile cfg sys
           prealloc := preAfterFalloc cfg sys
           written := writtenOf cfg
           tr := preTrace cfg sys ++ [.linkatEmptyPath fname, .linkatProcPath fname]
           fs := fs2 }) := by
      simp [stepLink, linkatEmpty, linkatProc, emit, hsup, hproc]
    rw [runSteps_cons_err hstep]

/-- A syscall layer in which both publication primitives fail. -/
def linkFailSys : Sys := { linkatEmptySupported := false, linkatProcOk := false }

/-- Witness for C7 at concrete states: a supported primary publishes with a
single attempt; when both attempts fail the surfaced error wraps the
fallback's errno, also at `Create` level. -/
theorem publication_dual_path_witness :
    stepLink okSys "t" { staged := dummyFile, fs := emptyFS } =
      (.ok (), { staged := dummyFile,
                 tr := [Ev.linkatEmptyPath "t"],
                 fs := publish emptyFS "t" dummyFile })
    ∧ stepLink linkFailSys "t" { staged := dummyFile, fs := emptyFS } =
        (.error (.werror "linking file" (.errno .ENOENT)),
         { staged := dummyFile,
           tr := [Ev.linkatEmptyPath "t", Ev.linkatProcPath "t"],
           fs := emptyFS })
    ∧ (create linkFailSys emptyFS "t" []).1 =
        .error (.werror "linking file" (.errno .ENOENT)) := by
  have h1 := publication_dual_path okSys "t" { staged := dummyFile, fs := emptyFS }
  have h2 := publication_dual_path linkFailSys "t" { staged := dummyFile, fs := emptyFS }
  refine ⟨?_, ?_, ?_⟩
  · have := h1.1 rfl
    simpa using this
  · have := h2.2.2.1 .ENOTSUP .ENOENT rfl rfl
    simpa using this
  · exact h2.2.2.2 [] defaultConfig emptyFS rfl
      ⟨fun _ => rfl, rfl, fun _ => rfl, fun _ => rfl, fun _ => rfl, fun _ => rfl,
        fun i _ => rfl, fun _ => rfl, fun _ => rfl⟩ rfl rfl

/-- C8 counterexample: when a positive preallocation was already set,
`Preallocate (-1)` fails with the duplicate-option error, not the
invalid-argument one — the duplicate check runs first. -/
theorem negative_prealloc_counterexample :
    (create okSys emptyFS "t" [.preallocate 5, .preallocate (-1)]).1 =
      .error (.werror "options" (.werror0 "multiple preallocations"))
    ∧ (Err.werror "options" (.werror0 "multiple preallocations")) ≠
      (Err.werror "options" (.werror0 "invalid preallocation size")) :=
  ⟨rfl, by decide⟩

/-- C8 amended: for every negative size, `Preallocate s` reached while the
preallocation field is still unset fails with the `InvalidArgument` error
during option accumulation, with no syscall attempted and the namespace
untouched, whatever options follow; a previously set positive size makes
the duplicate-option error win instead. -/
theorem negative_prealloc_rejected (sys : Sys) (fs : FS) (fname : String)
    (pre post : List Opt) (c : Config) (s : Int)
    (hpre : applyOpts pre defaultConfig = .ok c)
    (hc : c.prealloc = 0) (hs : s < 0) :
    create sys fs fname (pre ++ .preallocate s :: post) =
      (.error (.werror "options" (.werror0 "invalid preallocation size")), [], fs) := by
  unfold create
  rw [applyOpts_append, hpre]
  have hstep : applyOpts (.preallocate s :: post) c =
      .error (.werror0 "invalid preallocation size") := by
    unfold applyOpts applyOpt
    simp [hc, defaultConfig, hs]
  dsimp only
  rw [hstep]

/-- Witness for C8's amended theorem: `Preallocate (-1)` alone. -/
theorem negative_prealloc_rejected_witness :
    create okSys emptyFS "t" ([] ++ .preallocate (-1) :: []) =
      (.error (.werror "options" (.werror0 "invalid preallocation size")), [], emptyFS) :=
  negative_prealloc_rejected okSys emptyFS "t" [] [] defaultConfig (-1) rfl rfl
    (by decide)

/-- C9 counterexample: `Preallocate 0` right after `Preallocate 5` does
trigger the duplicate-option error — the sentinel value is not accepted
once the field is set, so it is not unconditionally repeatable. -/
theorem sentinel_identity_counterexample :
    (create okSys emptyFS "t" [.preallocate 5, .preallocate 0]).1 =
      .error (.werror "options" (.werror0 "multiple preallocations")) := rfl

/-- C9 amended: on a configuration whose corresponding field is still at
its default, `Preallocate 0` and `Ownership (-1) (-1)` are identities (so
each can be repeated any number of times without a duplicate-option
error as long as no non-sentinel value precedes it), a `Create` run with
exactly these options behaves identically to one with no options at all,
and no run of it ever attempts `fchown` or `fallocate`. -/
theorem sentinel_identity (c : Config) (sys : Sys) (fs : FS) (fname : String) :
    (c.prealloc = 0 → applyOpt (.preallocate 0) c = .ok c)
    ∧ (c.uid = -1 → c.gid = -1 → applyOpt (.ownership (-1) (-1)) c = .ok c)
    ∧ create sys fs fname [.preallocate 0, .ownership (-1) (-1)] =
        create sys fs fname []
    ∧ (∀ e ∈ (create sys fs fname [.preallocate 0, .ownership (-1) (-1)]).2.1,
        (∀ u g, e ≠ .fchown u g) ∧ (∀ o l, e ≠ .fallocate o l)) := by
  refine ⟨?_, ?_, rfl, ?_⟩
  · intro hc
    have hceq : ({ c with prealloc := 0 } : Config) = c := by
      cases c
      simp_all
    unfold applyOpt
    simp [hc, defaultConfig, hceq]
  · intro hu hg
    have hceq : ({ c with uid := -1, gid := -1 } : Config) = c := by
      cases c
      simp_all
    unfold applyOpt
    simp [hu, hg, defaultConfig, hceq]
  · intro e he
    rw [show create sys fs fname [.preallocate 0, .ownership (-1) (-1)] =
        (let out := createC sys fs fname defaultConfig
         (out.1, out.2.tr, out.2.fs)) from rfl] at he
    dsimp only at he
    have hp := createC_emitsIn e he
    rcases hp with h | h | h | h | h | h | h | h | h | h | h
    · obtain ⟨_, h | h | h⟩ := h
      all_goals subst h
      all_goals exact ⟨fun u g => by simp, fun o l => by simp⟩
    · subst h; exact ⟨fun u g => by simp, fun o l => by simp⟩
    · obtain ⟨hreq, _⟩ := h
      simp [ownReq, defaultConfig] at hreq
    · obtain ⟨_, rfl⟩ := h; exact ⟨fun u g => by simp, fun o l => by simp⟩
    · obtain ⟨hpos, _⟩ := h
      simp [effPrealloc, defaultConfig] at hpos
    · subst h; exact ⟨fun u g => by simp, fun o l => by simp⟩
    · obtain ⟨o, l, rfl⟩ := h; exact ⟨fun u g => by simp, fun o2 l2 => by simp⟩
    · obtain ⟨n, v, rfl⟩ := h; exact ⟨fun u g => by simp, fun o l => by simp⟩
    · obtain ⟨a, m, rfl⟩ := h; exact ⟨fun u g => by simp, fun o l => by simp⟩
    · subst h; exact ⟨fun u g => by simp, fun o l => by simp⟩
    · subst h; exact ⟨fun u g => by simp, fun o l => by simp⟩

/-- Witness for C9's amended theorem at the default configuration. -/
theorem sentinel_identity_witness :
    applyOpt (.preallocate 0) defaultConfig = .ok defaultConfig
    ∧ applyOpt (.ownership (-1) (-1)) defaultConfig = .ok defaultConfig
    ∧ create okSys emptyFS "t" [.preallocate 0, .ownership (-1) (-1)] =
        create okSys emptyFS "t" []
    ∧ (∀ e ∈ (create okSys emptyFS "t" [.preallocate 0, .ownership (-1) (-1)]).2.1,
        (∀ u g, e ≠ .fchown u g) ∧ (∀ o l, e ≠ .fallocate o l)) := by
  have h := sentinel_identity defaultConfig okSys emptyFS "t"
  exact ⟨h.1 rfl, h.2.1 rfl rfl, h.2.2.1, h.2.2.2⟩

theorem expectedFile_perm (cfg : Config) (sys : Sys) :
    (expectedFile cfg sys).perm = if permReq cfg then cfg.perm else 0o666 := by
  unfold expectedFile stagedX stagedCopy stagedPerm stagedOwn freshFile
  by_cases ht : timesReq cfg <;> by_cases hp : permReq cfg <;> by_cases ho : ownReq cfg <;>
    simp [ht, hp, ho]

/-- C10: the `Permissions` option records only the low nine permission bits
of the supplied mode (`mode.Perm()`), so setuid/setgid/sticky/type bits are
discarded; the recorded value is what `fchmod` applies and what the
published file carries. -/
theorem permissions_low_bits (mode : Nat) (c : Config) (sys : Sys)
    (fs : FS) (fname : String) :
    (c.perm = defaultConfig.perm →
      applyOpt (.permissions mode) c = .ok { c with perm := mode &&& 0o777 })
    ∧ mode &&& 0o777 ≤ 0o777
    ∧ (∀ (options : List Opt) (cfg : Config),
        applyOpts options defaultConfig = .ok cfg → cfg.perm = mode &&& 0o777 →
        goodRun cfg sys fs fname →
        Ev.fchmod (mode &&& 0o777) ∈ (create sys fs fname options).2.1
        ∧ ∃ f : File, (create sys fs fname options).2.2 fname = some f
            ∧ f.perm = mode &&& 0o777) := by
  have h777 : mode &&& 0o777 ≤ 0o777 := Nat.and_le_right
  refine ⟨?_, h777, ?_⟩
  · intro hc
    unfold applyOpt
    simp [hc]
  · intro options cfg happ hperm hrun
    have hmne : mode &&& 0o777 ≠ defaultConfig.perm := by
      intro hcontra
      rw [show defaultConfig.perm = permUnset from rfl] at hcontra
      rw [hcontra] at h777
      simp [permUnset] at h777
    have hne : permReq cfg := by
      intro hcontra
      rw [hperm] at hcontra
      exact hmne hcontra
    constructor
    · rw [show (create sys fs fname options).2.1 = expectedTrace cfg sys fname by
        unfold create; rw [happ]; dsimp only; rw [createC_master hrun]]
      simp only [expectedTrace, preTrace, preB, trace4, List.append_assoc,
        List.mem_append]
      right; right; right; left
      simp [hne, hperm, hmne]
    · rw [show (create sys fs fname options).2.2 =
          publish fs fname (expectedFile cfg sys) by
        unfold create; rw [happ]; dsimp only; rw [createC_master hrun]]
      refine ⟨expectedFile cfg sys, by simp [publish], ?_⟩
      rw [expectedFile_perm]
      simp [hne, hperm, hmne]

/-- Witness for C10: mode `0o4755` (setuid plus `rwxr-xr-x`) records and
applies `0o755`. -/
theorem permissions_low_bits_witness :
    applyOpt (.permissions 0o4755) defaultConfig =
      .ok { defaultConfig with perm := 0o4755 &&& 0o777 }
    ∧ (0o4755 &&& 0o777 : Nat) = 0o755
    ∧ Ev.fchmod (0o4755 &&& 0o777) ∈
        (create okSys emptyFS "t" [.permissions 0o4755]).2.1
    ∧ ∃ f : File, (create okSys emptyFS "t" [.permissions 0o4755]).2.2 "t" = some f
        ∧ f.perm = 0o4755 &&& 0o777 := by
  have h := permissions_low_bits 0o4755 defaultConfig okSys emptyFS "t"
  have h3 := h.2.2 [.permissions 0o4755] { defaultConfig with perm := 0o4755 &&& 0o777 }
    rfl rfl
    ⟨⟨fun _ => rfl, rfl, fun _ => rfl, fun _ => rfl, fun _ => rfl, fun _ => rfl,
      fun i _ => rfl, fun _ => rfl, fun _ => rfl⟩, Or.inl rfl, fun _ => rfl, rfl⟩
  exact ⟨h.1 rfl, by decide, h3.1, h3.2⟩

/-- Witness for C4: with `Fsync` requested the concrete trace is the
flush-bracketed publication; with no options no flush or directory-open
event ever appears. -/
theorem durability_ordering_witness :
    ((create okSys emptyFS "t" [.fsync]).2.1 =
        (preB { defaultConfig with flushData := true } okSys ++ [.fsyncFile])
          ++ linkEvs okSys "t" ++ [.fsyncDir])
    ∧ (∀ e ∈ (create okSys emptyFS "t" []).2.1,
        e ≠ Ev.openDir ∧ e ≠ Ev.fsyncFile ∧ e ≠ Ev.fsyncDir) := by
  constructor
  · exact ((durability_ordering [.fsync] { defaultConfig with flushData := true }
      okSys emptyFS "t" rfl).1 rfl
      ⟨⟨fun _ => rfl, rfl, fun _ => rfl, fun _ => rfl, fun _ => rfl, fun _ => rfl,
        fun i _ => rfl, fun _ => rfl, fun _ => rfl⟩, Or.inl rfl, fun _ => rfl, rfl⟩).1
  · exact (durability_ordering [] defaultConfig okSys emptyFS "t" rfl).2 rfl
